import Mathlib

/-!
Verification of the procedural world-generation core of the Japanese MUD
text-adventure engine (`run_game.py`, `app/utils/ai_client.py`,
`app/utils/image_client.py`), shallowly embedded in Lean 4.

Python dictionaries that the engine only ever reads by key, writes by key and
measures with `len` are modelled as association lists with overwrite-insert
(`dinsert`), which keeps the keys duplicate-free so `List.length` coincides
with the Python dictionary size.  External AI/image calls are modelled by an
oracle record (`Oracle`) describing the outcome of each call a command may
make; `none`/failure constructors stand for the Python exception or
missing-key paths that the clients absorb internally.  Python exceptions that
would escape `process_command` are modelled with `Except`.
-/

/-! ## Association-list dictionaries (Python `dict` with key-read/key-write use) -/

def dictLookup {α : Type} (k : String) : List (String × α) → Option α
  | [] => none
  | e :: t => if e.1 = k then some e.2 else dictLookup k t

def dkeys {α : Type} (l : List (String × α)) : List String :=
  l.map Prod.fst

/-- Python `d[k] = v`: overwrite semantics, keeping keys duplicate-free. -/
def dinsert {α : Type} (k : String) (v : α) (l : List (String × α)) : List (String × α) :=
  (k, v) :: l.filter (fun e => e.1 ≠ k)

/-- In-place mutation of the value stored at key `k` (Python mutating a dict value). -/
def dupdate {α : Type} (k : String) (f : α → α) (l : List (String × α)) : List (String × α) :=
  l.map (fun e => if e.1 = k then (e.1, f e.2) else e)

theorem dictLookup_dinsert_self {α : Type} (k : String) (v : α) (l : List (String × α)) :
    dictLookup k (dinsert k v l) = some v := by
  simp [dinsert, dictLookup]

theorem dictLookup_filter_ne {α : Type} (k k' : String) (l : List (String × α))
    (h : k' ≠ k) :
    dictLookup k' (l.filter (fun e => e.1 ≠ k)) = dictLookup k' l := by
  induction l with
  | nil => rfl
  | cons e t ih =>
    simp only [ne_eq, decide_not] at ih ⊢
    by_cases he : e.1 = k
    · have hne : ¬ e.1 = k' := fun hh => h (hh ▸ he)
      rw [List.filter_cons_of_neg (by simp [he]), ih]
      simp [dictLookup, hne]
    · rw [List.filter_cons_of_pos (by simp [he])]
      by_cases he' : e.1 = k' <;> simp [dictLookup, he', ih]

theorem dictLookup_dinsert_ne {α : Type} {k k' : String} (v : α) (l : List (String × α))
    (h : k' ≠ k) : dictLookup k' (dinsert k v l) = dictLookup k' l := by
  have hkk : ¬ k = k' := fun hh => h hh.symm
  simp only [dinsert, dictLookup, if_neg hkk]
  exact dictLookup_filter_ne k k' l h

theorem dictLookup_isSome_iff_mem_dkeys {α : Type} (k : String) (l : List (String × α)) :
    (dictLookup k l).isSome ↔ k ∈ dkeys l := by
  induction l with
  | nil => simp [dictLookup, dkeys]
  | cons e t ih =>
    by_cases he : e.1 = k
    · simp [dictLookup, dkeys, he]
    · have : ¬ k = e.1 := fun hh => he hh.symm
      simpa [dictLookup, dkeys, he, this] using ih

theorem dictLookup_mem {α : Type} {k : String} {v : α} {l : List (String × α)}
    (h : dictLookup k l = some v) : (k, v) ∈ l := by
  induction l with
  | nil => simp [dictLookup] at h
  | cons e t ih =>
    by_cases he : e.1 = k
    · simp only [dictLookup, if_pos he] at h
      obtain ⟨a, b⟩ := e
      simp only at he
      injection h with h2
      subst he
      subst h2
      exact .head _
    · simp only [dictLookup, if_neg he] at h
      exact .tail _ (ih h)

theorem dinsert_filter_of_fresh {α : Type} {k : String} {l : List (String × α)}
    (h : k ∉ dkeys l) (v : α) : dinsert k v l = (k, v) :: l := by
  simp only [dinsert]
  congr 1
  apply List.filter_eq_self.mpr
  intro e he
  have : e.1 ≠ k := by
    intro hk
    exact h (hk ▸ List.mem_map_of_mem Prod.fst he)
  simpa using this

theorem dkeys_dinsert_nodup {α : Type} (k : String) (v : α) (l : List (String × α))
    (h : (dkeys l).Nodup) : (dkeys (dinsert k v l)).Nodup := by
  simp only [dinsert, dkeys, List.map_cons, List.nodup_cons]
  constructor
  · intro hmem
    obtain ⟨e, he, hk⟩ := List.mem_map.mp hmem
    have := List.of_mem_filter he
    simp only [ne_eq, decide_not, Bool.not_eq_true', decide_eq_false_iff_not] at this
    exact this hk
  · have hsub : List.Sublist (l.filter (fun e => e.1 ≠ k)) l := List.filter_sublist l
    exact (hsub.map Prod.fst).nodup h

theorem dupdate_of_not_mem {α : Type} {k : String} {l : List (String × α)}
    (h : k ∉ dkeys l) (f : α → α) : dupdate k f l = l := by
  induction l with
  | nil => rfl
  | cons e t ih =>
    simp only [dkeys, List.map_cons, List.mem_cons, not_or] at h
    have he : ¬ e.1 = k := fun hh => h.1 hh.symm
    simp only [dupdate, List.map_cons, if_neg he]
    have := ih (by simpa [dkeys] using h.2)
    simp only [dupdate] at this
    rw [this]

theorem dkeys_dupdate {α : Type} (k : String) (f : α → α) (l : List (String × α)) :
    dkeys (dupdate k f l) = dkeys l := by
  induction l with
  | nil => rfl
  | cons e t ih =>
    by_cases he : e.1 = k
    · simpa [dupdate, dkeys, he] using ih
    · simpa [dupdate, dkeys, he] using ih

theorem dictLookup_dupdate_self {α : Type} {k : String} {l : List (String × α)} {v : α}
    (f : α → α) (h : dictLookup k l = some v) :
    dictLookup k (dupdate k f l) = some (f v) := by
  induction l with
  | nil => simp [dictLookup] at h
  | cons e t ih =>
    by_cases he : e.1 = k
    · simp only [dictLookup, if_pos he] at h
      injection h with h2
      simp [dupdate, dictLookup, he, h2]
    · simp only [dictLookup, if_neg he] at h
      simp only [dupdate, List.map_cons, if_neg he, dictLookup, if_neg he]
      exact ih h

theorem dictLookup_dupdate_ne {α : Type} {k k' : String} (f : α → α) (l : List (String × α))
    (h : k' ≠ k) : dictLookup k' (dupdate k f l) = dictLookup k' l := by
  induction l with
  | nil => rfl
  | cons e t ih =>
    by_cases he : e.1 = k
    · have hne : ¬ e.1 = k' := fun hh => h (hh ▸ he)
      simp only [dupdate, List.map_cons, if_pos he, dictLookup]
      rw [if_neg (by simpa using hne), if_neg hne]
      exact ih
    · simp only [dupdate, List.map_cons, if_neg he, dictLookup]
      by_cases he' : e.1 = k'
      · simp [he']
      · rw [if_neg he', if_neg he']
        exact ih

/-! ## Decimal string representations (Python `str(int)` / f-string interpolation)

`Nat.repr`/`Int.repr` match Python decimal formatting.  We prove them
injective and digit-only so that the generated identifier strings
(`item_<x,y>_<n>`, `npc_<x,y>_<n>`) can be shown pairwise distinct. -/

theorem toDigitsCore_append (fuel n : Nat) (acc : List Char) :
    Nat.toDigitsCore 10 fuel n acc = Nat.toDigitsCore 10 fuel n [] ++ acc := by
  induction fuel generalizing n acc with
  | zero => simp [Nat.toDigitsCore]
  | succ f ih =>
    simp only [Nat.toDigitsCore]
    by_cases h : n / 10 = 0
    · simp [h]
    · simp only [if_neg h]
      rw [ih (n / 10) (Nat.digitChar (n % 10) :: acc), ih (n / 10) [Nat.digitChar (n % 10)]]
      simp

theorem toDigitsCore_fuel_irrel (f1 : Nat) : ∀ f2 n : Nat, n < f1 → n < f2 →
    Nat.toDigitsCore 10 f1 n [] = Nat.toDigitsCore 10 f2 n [] := by
  induction f1 with
  | zero => intro f2 n h1; omega
  | succ f ih =>
    intro f2 n h1 h2
    match f2, h2 with
    | f2' + 1, h2 =>
      simp only [Nat.toDigitsCore]
      by_cases h : n / 10 = 0
      · simp [h]
      · simp only [if_neg h]
        have hn10 : n / 10 < n := Nat.div_lt_self (by omega) (by omega)
        rw [toDigitsCore_append f (n / 10), toDigitsCore_append f2' (n / 10)]
        rw [ih f2' (n / 10) (by omega) (by omega)]

theorem natToDigits_lt_ten {n : Nat} (h : n < 10) :
    Nat.toDigits 10 n = [Nat.digitChar n] := by
  simp only [Nat.toDigits, Nat.toDigitsCore]
  have h10 : n / 10 = 0 := Nat.div_eq_of_lt h
  have hm : n % 10 = n := Nat.mod_eq_of_lt h
  simp [h10, hm]

theorem natToDigits_ge_ten {n : Nat} (h : 10 ≤ n) :
    Nat.toDigits 10 n = Nat.toDigits 10 (n / 10) ++ [Nat.digitChar (n % 10)] := by
  conv_lhs => rw [Nat.toDigits, Nat.toDigitsCore]
  have h10 : ¬ n / 10 = 0 := by
    intro hh
    have := Nat.div_eq_of_lt (show n < 10 by omega)
    omega
  simp only [if_neg h10]
  rw [toDigitsCore_append n (n / 10)]
  rw [Nat.toDigits]
  congr 1
  exact toDigitsCore_fuel_irrel n (n / 10 + 1) (n / 10)
    (Nat.lt_of_lt_of_le (Nat.div_lt_self (by omega) (by omega)) (by omega)) (by omega)

/-- Numeric value of a digit character. -/
def charVal (c : Char) : Nat := c.toNat - 48

/-- Value of a decimal digit string, most significant first. -/
def decVal (l : List Char) : Nat := l.foldl (fun a c => 10 * a + charVal c) 0

theorem decVal_append_singleton (l : List Char) (c : Char) :
    decVal (l ++ [c]) = 10 * decVal l + charVal c := by
  simp [decVal, List.foldl_append]

theorem charVal_digitChar {d : Nat} (h : d < 10) : charVal (Nat.digitChar d) = d := by
  interval_cases d <;> rfl

theorem digitChar_isDigit {d : Nat} (h : d < 10) :
    48 ≤ (Nat.digitChar d).toNat ∧ (Nat.digitChar d).toNat ≤ 57 := by
  interval_cases d <;> exact ⟨by decide, by decide⟩

theorem decVal_toDigits (n : Nat) : decVal (Nat.toDigits 10 n) = n := by
  induction n using Nat.strong_induction_on with
  | _ n ih =>
    by_cases h : n < 10
    · rw [natToDigits_lt_ten h]
      simp [decVal, charVal_digitChar h]
    · rw [natToDigits_ge_ten (by omega), decVal_append_singleton]
      rw [ih (n / 10) (Nat.div_lt_self (by omega) (by omega))]
      rw [charVal_digitChar (Nat.mod_lt n (by omega))]
      omega

theorem toDigits_digits (n : Nat) :
    ∀ c ∈ Nat.toDigits 10 n, 48 ≤ c.toNat ∧ c.toNat ≤ 57 := by
  induction n using Nat.strong_induction_on with
  | _ n ih =>
    by_cases h : n < 10
    · rw [natToDigits_lt_ten h]
      intro c hc
      rw [List.mem_singleton] at hc
      exact hc ▸ digitChar_isDigit h
    · rw [natToDigits_ge_ten (by omega)]
      intro c hc
      rcases List.mem_append.mp hc with h1 | h2
      · exact ih (n / 10) (Nat.div_lt_self (by omega) (by omega)) c h1
      · rw [List.mem_singleton] at h2
        exact h2 ▸ digitChar_isDigit (Nat.mod_lt n (by omega))

theorem toDigits_ne_nil (n : Nat) : Nat.toDigits 10 n ≠ [] := by
  by_cases h : n < 10
  · rw [natToDigits_lt_ten h]; simp
  · rw [natToDigits_ge_ten (by omega)]; simp

theorem natRepr_data (n : Nat) : (Nat.repr n).data = Nat.toDigits 10 n := rfl

theorem natRepr_inj {m n : Nat} (h : Nat.repr m = Nat.repr n) : m = n := by
  have hd : Nat.toDigits 10 m = Nat.toDigits 10 n := by
    have := congrArg String.data h
    simpa [natRepr_data] using this
  have := congrArg decVal hd
  simpa [decVal_toDigits] using this

theorem natRepr_digits (n : Nat) :
    ∀ c ∈ (Nat.repr n).data, 48 ≤ c.toNat ∧ c.toNat ≤ 57 := by
  rw [natRepr_data]; exact toDigits_digits n

theorem natRepr_ne_nil (n : Nat) : (Nat.repr n).data ≠ [] := by
  rw [natRepr_data]; exact toDigits_ne_nil n

theorem intRepr_data (i : Int) :
    (Int.repr i).data = match i with
      | .ofNat m => Nat.toDigits 10 m
      | .negSucc m => '-' :: Nat.toDigits 10 (m + 1) := by
  cases i with
  | ofNat m => rfl
  | negSucc m => rfl

theorem intRepr_chars (i : Int) :
    ∀ c ∈ (Int.repr i).data, c.toNat = 45 ∨ (48 ≤ c.toNat ∧ c.toNat ≤ 57) := by
  intro c hc
  rw [intRepr_data] at hc
  cases i with
  | ofNat m => exact .inr (toDigits_digits m c hc)
  | negSucc m =>
    rcases List.mem_cons.mp hc with h | h
    · exact .inl (by simp [h])
    · exact .inr (toDigits_digits (m + 1) c h)

theorem intRepr_inj {i j : Int} (h : Int.repr i = Int.repr j) : i = j := by
  cases i with
  | ofNat m =>
    cases j with
    | ofNat n =>
      have hd : Nat.toDigits 10 m = Nat.toDigits 10 n := congrArg String.data h
      have : decVal (Nat.toDigits 10 m) = decVal (Nat.toDigits 10 n) := congrArg decVal hd
      simp only [decVal_toDigits] at this
      simp [this]
    | negSucc n =>
      exfalso
      have hd : Nat.toDigits 10 m = '-' :: Nat.toDigits 10 (n + 1) := congrArg String.data h
      rcases hx : Nat.toDigits 10 m with _ | ⟨c, t⟩
      · exact toDigits_ne_nil m hx
      · rw [hx] at hd
        have hc : c ∈ Nat.toDigits 10 m := by rw [hx]; exact List.mem_cons_self _ _
        have := (toDigits_digits m c hc).1
        have hcm : c = '-' := (List.cons_eq_cons.mp hd).1
        rw [hcm] at this
        exact absurd this (by decide)
  | negSucc m =>
    cases j with
    | ofNat n =>
      exfalso
      have hd : '-' :: Nat.toDigits 10 (m + 1) = Nat.toDigits 10 n := congrArg String.data h
      rcases hx : Nat.toDigits 10 n with _ | ⟨c, t⟩
      · exact toDigits_ne_nil n hx
      · rw [hx] at hd
        have hc : c ∈ Nat.toDigits 10 n := by rw [hx]; exact List.mem_cons_self _ _
        have := (toDigits_digits n c hc).1
        have hcm : c = '-' := (List.cons_eq_cons.mp hd).1.symm
        rw [hcm] at this
        exact absurd this (by decide)
    | negSucc n =>
      have hd : '-' :: Nat.toDigits 10 (m + 1) = '-' :: Nat.toDigits 10 (n + 1) :=
        congrArg String.data h
      have ht : Nat.toDigits 10 (m + 1) = Nat.toDigits 10 (n + 1) := by injection hd
      have : decVal (Nat.toDigits 10 (m + 1)) = decVal (Nat.toDigits 10 (n + 1)) :=
        congrArg decVal ht
      simp only [decVal_toDigits] at this
      simp [Int.negSucc_inj]
      omega

/-- Splitting a list at a separator that occurs in neither left part is unambiguous. -/
theorem sep_split {sep : Char} : ∀ {a a' b b' : List Char}, sep ∉ a → sep ∉ a' →
    a ++ sep :: b = a' ++ sep :: b' → a = a' ∧ b = b' := by
  intro a
  induction a with
  | nil =>
    intro a' b b' _ ha' h
    cases a' with
    | nil => simpa using h
    | cons c t =>
      exfalso
      simp only [List.nil_append, List.cons_append, List.cons_eq_cons] at h
      exact ha' (h.1 ▸ List.mem_cons_self _ _)
  | cons c t ih =>
    intro a' b b' ha ha' h
    cases a' with
    | nil =>
      exfalso
      simp only [List.cons_append, List.nil_append, List.cons_eq_cons] at h
      exact ha (h.1 ▸ List.mem_cons_self _ _)
    | cons c' t' =>
      simp only [List.cons_append, List.cons_eq_cons] at h
      have hm : sep ∉ t := fun hh => ha (List.mem_cons_of_mem _ hh)
      have hm' : sep ∉ t' := fun hh => ha' (List.mem_cons_of_mem _ hh)
      obtain ⟨h1, h2⟩ := ih hm hm' h.2
      exact ⟨by rw [h.1, h1], h2⟩

/-! ## Coordinate keys and generated identifiers (`run_game.py`) -/

/-- `SimpleGameEngine._coords_to_str`: `f"{coords[0]},{coords[1]}"`. -/
def coordsToStr (c : Int × Int) : String := Int.repr c.1 ++ "," ++ Int.repr c.2

/-- Python `str` of a coordinate tuple: `"(x, y)"`. -/
def tupleStr (c : Int × Int) : String := "(" ++ Int.repr c.1 ++ ", " ++ Int.repr c.2 ++ ")"

/-- Item id from `_generate_location_data`: `f"item_{coords_str}_{len(self.items)}"`. -/
def mkItemId (coordsStr : String) (n : Nat) : String :=
  "item_" ++ coordsStr ++ "_" ++ Nat.repr n

/-- NPC id from `_generate_location_data`: `f"npc_{coords_str}_{len(self.npcs)}"`. -/
def mkNpcId (coordsStr : String) (n : Nat) : String :=
  "npc_" ++ coordsStr ++ "_" ++ Nat.repr n

theorem coordsToStr_no_underscore (c : Int × Int) : '_' ∉ (coordsToStr c).data := by
  intro h
  simp only [coordsToStr, String.data_append] at h
  rcases List.mem_append.mp h with h1 | h2
  · rcases List.mem_append.mp h1 with h3 | h4
    · rcases intRepr_chars c.1 _ h3 with h5 | h5 <;> exact absurd h5 (by decide)
    · exact absurd h4 (by decide)
  · rcases intRepr_chars c.2 _ h2 with h5 | h5 <;> exact absurd h5 (by decide)

theorem coordsToStr_inj {c c' : Int × Int} (h : coordsToStr c = coordsToStr c') : c = c' := by
  have hd := congrArg String.data h
  simp only [coordsToStr, String.data_append, List.append_assoc] at hd
  have hnc : ∀ i : Int, ',' ∉ (Int.repr i).data := by
    intro i hin
    rcases intRepr_chars i _ hin with h5 | h5 <;> exact absurd h5 (by decide)
  have hsep := sep_split (hnc c.1) (hnc c'.1) (by simpa using hd)
  obtain ⟨h1, h2⟩ := hsep
  have e1 := intRepr_inj (congrArg String.mk h1)
  have e2 := intRepr_inj (congrArg String.mk h2)
  obtain ⟨x, y⟩ := c
  obtain ⟨x', y'⟩ := c'
  simp_all

theorem mkItemId_inj {cs cs' : String} {n n' : Nat}
    (hc : '_' ∉ cs.data) (hc' : '_' ∉ cs'.data)
    (h : mkItemId cs n = mkItemId cs' n') : cs = cs' ∧ n = n' := by
  have hd := congrArg String.data h
  simp only [mkItemId, String.data_append, List.append_assoc] at hd
  have hd2 := List.append_cancel_left hd
  have hsep := sep_split hc hc' (by simpa using hd2)
  obtain ⟨h1, h2⟩ := hsep
  refine ⟨congrArg String.mk h1, natRepr_inj (congrArg String.mk h2)⟩

theorem mkNpcId_inj {cs cs' : String} {n n' : Nat}
    (hc : '_' ∉ cs.data) (hc' : '_' ∉ cs'.data)
    (h : mkNpcId cs n = mkNpcId cs' n') : cs = cs' ∧ n = n' := by
  have hd := congrArg String.data h
  simp only [mkNpcId, String.data_append, List.append_assoc] at hd
  have hd2 := List.append_cancel_left hd
  have hsep := sep_split hc hc' (by simpa using hd2)
  obtain ⟨h1, h2⟩ := hsep
  refine ⟨congrArg String.mk h1, natRepr_inj (congrArg String.mk h2)⟩

/-! ## Python string helpers -/

/-- Python `str.lower()` (ASCII-relevant part used by the engine). -/
def pyLower (s : String) : String := ⟨s.data.map Char.toLower⟩

def splitWsAux : List Char → List Char → List String
  | [], acc => if acc.isEmpty then [] else [String.mk acc.reverse]
  | c :: t, acc =>
    if c.isWhitespace then
      if acc.isEmpty then splitWsAux t [] else String.mk acc.reverse :: splitWsAux t []
    else splitWsAux t (c :: acc)

/-- Python `str.split()` with no argument: split on whitespace runs, dropping empties. -/
def pySplit (s : String) : List String := splitWsAux s.data []

/-- Python `" ".join(parts)`. -/
def joinSpace (l : List String) : String := String.intercalate " " l

def isPrefixChars : List Char → List Char → Bool
  | [], _ => true
  | _ :: _, [] => false
  | a :: as, b :: bs => a = b && isPrefixChars as bs

def containsAt : List Char → List Char → Bool
  | needle, [] => needle.isEmpty
  | needle, c :: t => isPrefixChars needle (c :: t) || containsAt needle t

/-- Python substring test `needle in hay`. -/
def strContains (hay needle : String) : Bool := containsAt needle.data hay.data

/-! ## Data model (dynamically generated game records of `run_game.py`) -/

/-- An item record as produced by `AIClient.generate_item_details` (validated JSON)
with the `id` added by `_generate_location_data`.  `japanese_name` models the
optional key read by `get_item_in_location` via `.get("japanese_name", "")`. -/
structure Item where
  id : String
  name : String
  name_english : String
  name_romaji : String
  japanese_name : String
  description : String
  can_be_taken : Bool
  vocabulary : List String
deriving DecidableEq

/-- An NPC record as produced by `AIClient.generate_npc_details` (validated JSON)
with the `id` added by `_generate_location_data`.  `japanese_name`/`romaji` model
the optional keys read by `get_npc_in_location` via `.get(..., "")`. -/
structure Npc where
  id : String
  name : String
  name_english : String
  japanese_name : String
  romaji : String
  short_description : String
  role : String
  personality : String
  greeting : String
  vocabulary : List String
deriving DecidableEq

/-- Validated payload of `AIClient.generate_location_details`. -/
structure LocDetails where
  name : String
  japanese_name : String
  description : String
deriving DecidableEq

/-- A location record as built by `SimpleGameEngine._generate_location_data`. -/
structure Location where
  id : String
  name : String
  japanese_name : String
  description : String
  setting : String
  coords : Int × Int
  exits : List (String × Option (Int × Int))
  items : List String
  npcs : List String
  image_prompt : String
deriving DecidableEq

/-- One stored conversation exchange: `{"user": ..., "assistant": json.dumps(...)}`. -/
structure Exchange where
  user : String
  assistant : String
deriving DecidableEq

/-- Validated/fallback payload of `AIClient.npc_conversation`. -/
structure ConvResp where
  response_japanese : String
  response_english : String
  language_note : Option String
deriving DecidableEq

/-- Outcome of the OpenAI chat call inside `AIClient.npc_conversation`:
a parsed response with the required fields, a parsed response missing a
required field, or any raised exception. -/
inductive ConvOutcome where
  | ok (r : ConvResp)
  | missing
  | err (msg : String)
deriving DecidableEq

/-- Payload of `AIClient.generate_item_examination_details` (and its oracle). -/
structure ExamResp where
  description : String
  vocabulary : List String
deriving DecidableEq

/-- A vocabulary entry from `data/vocabulary/jlpt_n5.json`. -/
structure VocabWord where
  id : String
  japanese : String
  romaji : String
  english : String
  part_of_speech : Option String
  jlpt_level : Option String
  example_sentence : Option String
  example_translation : Option String
  usage_notes : Option String
  context_categories : List String
  related_words : List String
deriving DecidableEq

/-- A vocabulary theme from `data/vocabulary/themes.json`. -/
structure Theme where
  id : String
  name : Option String
  description : Option String
  words : List String
deriving DecidableEq

/-- Mutable state of `SimpleGameEngine`. -/
structure GameState where
  locations : List (String × Location)
  items : List (String × Item)
  npcs : List (String × Npc)
  vocabulary : List (String × VocabWord)
  vocabulary_themes : List (String × Theme)
  player_inventory : List String
  player_jlpt_level : String
  conversation_history : List (String × List Exchange)
  current_coords : Int × Int
deriving DecidableEq

/-- Outcome of a generic external text call that may fail with an exception. -/
inductive AICall (α : Type) where
  | ok (v : α)
  | fail (msg : String)
deriving DecidableEq

/-- Oracle describing the outcomes of the external/random calls one command may
make: the `random.choice` setting index, the `random.random() < 0.70` NPC roll,
and the parsed-and-validated result (or failure) of each AI call. -/
structure Oracle where
  settingIdx : Nat
  locDetails : Option LocDetails
  itemGen : Option Item
  npcRoll : Bool
  npcGen : Option Npc
  conv : ConvOutcome
  lookGen : AICall String
  examGen : Option ExamResp
deriving DecidableEq

/-! ## AIClient (`app/utils/ai_client.py`) -/

/-- `AIClient.generate_location_details`: deterministic fallback on missing key,
exception, or a response missing a required field; otherwise the parsed result. -/
def aiGenerateLocationDetails (hasKey : Bool) (o : Option LocDetails)
    (setting : String) (coords : Int × Int) : LocDetails :=
  let fallback : LocDetails :=
    { name := setting ++ " at " ++ tupleStr coords,
      japanese_name := setting ++ " (" ++ Int.repr coords.1 ++ "," ++ Int.repr coords.2 ++ ")",
      description := "A procedurally generated " ++ pyLower setting ++ " at "
        ++ tupleStr coords ++ " (AI fallback)." }
  if !hasKey then fallback
  else match o with
    | some d => d
    | none => fallback

/-- `AIClient.generate_item_details`: `None` on missing key, exception, missing
required keys or wrong field types; otherwise the validated result. -/
def aiGenerateItemDetails (hasKey : Bool) (o : Option Item) : Option Item :=
  if !hasKey then none else o

/-- `AIClient.generate_npc_details`: `None` on missing key, exception or missing
required keys; otherwise the validated result. -/
def aiGenerateNpcDetails (hasKey : Bool) (o : Option Npc) : Option Npc :=
  if !hasKey then none else o

/-- `AIClient.npc_conversation`: never raises; three fixed fallback dictionaries
for the no-key, incomplete-response and exception paths. -/
def aiNpcConversation (hasKey : Bool) (o : ConvOutcome) : ConvResp :=
  if !hasKey then
    { response_japanese := "すみません、今話せません。",
      response_english := "Sorry, I can\x27t talk right now.",
      language_note := some "Try again later." }
  else match o with
    | .ok r => r
    | .missing =>
      { response_japanese := "すみません、よく理解できません。",
        response_english := "I\x27m sorry, I don\x27t understand well.",
        language_note := some "The AI response was incomplete." }
    | .err m =>
      { response_japanese := "すみません、技術的な問題があります。",
        response_english := "Sorry, there\x27s a technical issue.",
        language_note := some ("Error: " ++ m) }

/-- `AIClient.generate_enhanced_look`. -/
def aiGenerateEnhancedLook (hasKey : Bool) (o : AICall String) : String :=
  if !hasKey then "You look around, but your imagination fails you without the AI\x27s help."
  else match o with
    | .ok d => d
    | .fail m => "You try to look closer, but the details blur. (AI Error: " ++ m ++ ")"

/-- `AIClient.generate_item_examination_details`: always returns a dictionary. -/
def aiGenerateItemExam (hasKey : Bool) (o : Option ExamResp) (item : Item) : ExamResp :=
  let fallback : ExamResp := { description := item.description, vocabulary := [] }
  if !hasKey then fallback
  else match o with
    | some d =>
      { description := item.description ++ "\n\nUpon closer examination: " ++ d.description,
        vocabulary := d.vocabulary }
    | none => fallback

/-- `json.dumps(ai_response)` as appended to conversation history. -/
def jsonOfConvResp (r : ConvResp) : String :=
  "\x7b\"response_japanese\": \"" ++ r.response_japanese
    ++ "\", \"response_english\": \"" ++ r.response_english ++ "\""
    ++ (match r.language_note with
        | some n => ", \"language_note\": \"" ++ n ++ "\""
        | none => "")
    ++ "\x7d"

/-! ## SimpleGameEngine (`run_game.py`) -/

/-- Lexicographic (code-point) string order used by Python `sorted`. -/
def lexLeChars : List Char → List Char → Bool
  | [], _ => true
  | _ :: _, [] => false
  | a :: as, b :: bs => if a = b then lexLeChars as bs else decide (a < b)

def strLeB (a b : String) : Bool := lexLeChars a.data b.data

def insertSorted (x : String) : List String → List String
  | [] => [x]
  | y :: t => if strLeB x y then x :: y :: t else y :: insertSorted x t

/-- Python `sorted` on a list of strings. -/
def pySort (l : List String) : List String := l.foldr insertSorted []

def locationSettingsPool : List String :=
  ["Residential Neighborhood", "Small Urban Park", "Quiet Shopping Street",
   "Path near a Small Shrine", "Empty Field", "Riverside Path"]

/-- `random.choice(self.location_settings_pool)` driven by the oracle index. -/
def pickSetting (g : Oracle) : String :=
  locationSettingsPool.getD (g.settingIdx % locationSettingsPool.length) ""

/-- The direction-delta table of the `go` branch of `process_command`. -/
def directionMap (d : String) : Option (Int × Int) :=
  if d = "north" then some (0, 1)
  else if d = "south" then some (0, -1)
  else if d = "east" then some (1, 0)
  else if d = "west" then some (-1, 0)
  else if d = "北" then some (0, 1)
  else if d = "南" then some (0, -1)
  else if d = "東" then some (1, 0)
  else if d = "西" then some (-1, 0)
  else none

/-- Name fields matched by `get_item_in_location`/`get_item_in_inventory`
(case-insensitive substring, skipping empty names). -/
def itemMatches (q : String) (item : Item) : Bool :=
  let names := [pyLower item.id, pyLower item.name, pyLower item.name_english,
    pyLower item.japanese_name]
  (names.filter (fun nm => nm ≠ "")).any (fun nm => strContains nm q)

def findFirstItem (catalog : List (String × Item)) (ids : List String) (q : String) :
    Option Item :=
  match ids with
  | [] => none
  | itemId :: rest =>
    match dictLookup itemId catalog with
    | some item =>
      if itemMatches q item then some item else findFirstItem catalog rest q
    | none => findFirstItem catalog rest q

/-- `SimpleGameEngine.get_item_in_location`. -/
def getItemInLocation (s : GameState) (targetItemName : String) : Option Item :=
  match dictLookup (coordsToStr s.current_coords) s.locations with
  | none => none
  | some location => findFirstItem s.items location.items (pyLower targetItemName)

/-- `SimpleGameEngine.get_item_in_inventory`. -/
def getItemInInventory (s : GameState) (targetItemName : String) : Option Item :=
  findFirstItem s.items s.player_inventory (pyLower targetItemName)

/-- Name fields matched by `get_npc_in_location` (no empty-name filter there). -/
def npcMatches (q : String) (npc : Npc) : Bool :=
  let names := [pyLower npc.id, pyLower npc.name, pyLower npc.japanese_name,
    pyLower npc.romaji]
  names.any (fun nm => strContains nm q)

def findFirstNpc (catalog : List (String × Npc)) (ids : List String) (q : String) :
    Option Npc :=
  match ids with
  | [] => none
  | npcId :: rest =>
    match dictLookup npcId catalog with
    | some npc => if npcMatches q npc then some npc else findFirstNpc catalog rest q
    | none => findFirstNpc catalog rest q

/-- `SimpleGameEngine.get_npc_in_location`. -/
def getNpcInLocation (s : GameState) (targetName : String) : Option Npc :=
  match dictLookup (coordsToStr s.current_coords) s.locations with
  | none => none
  | some location => findFirstNpc s.npcs location.npcs (pyLower targetName)

/-- The structured payload returned by `get_location_description`. -/
structure LocView where
  description : String
  items : List Item
  npcs : List Npc
deriving DecidableEq

/-- `SimpleGameEngine.get_location_description`. -/
def getLocationDescription (s : GameState) (coordsStr : String) : Option LocView :=
  match dictLookup coordsStr s.locations with
  | none => none
  | some location =>
    let header := ["Location: " ++ location.name ++ " (" ++ coordsStr ++ ")",
      location.description]
    let itemLines :=
      if location.items.isEmpty then ["There are no items here."]
      else "You see:" :: location.items.map (fun itemId =>
        match dictLookup itemId s.items with
        | some it => "  - " ++ it.name
        | none => "  - An unknown item (" ++ itemId ++ ")")
    let itemsPresent := location.items.filterMap (fun itemId => dictLookup itemId s.items)
    let npcLines :=
      if location.npcs.isEmpty then ["There is no one else here."]
      else "People present:" :: location.npcs.map (fun npcId =>
        match dictLookup npcId s.npcs with
        | some np => "  - " ++ np.name
        | none => "  - Someone unknown (" ++ npcId ++ ")")
    let npcsPresent := location.npcs.filterMap (fun npcId => dictLookup npcId s.npcs)
    let exits := (location.exits.filter (fun e => e.2.isSome)).map Prod.fst
    let exitLine := ["Exits: " ++ (if exits.isEmpty then "None" else String.intercalate ", " exits)]
    some { description := String.intercalate "\n" (header ++ itemLines ++ npcLines ++ exitLine),
           items := itemsPresent, npcs := npcsPresent }

/-- `SimpleGameEngine.get_ai_enhanced_look_description` (the item/NPC names it
collects only feed the prompt of the external call, which the oracle answers). -/
def getAiEnhancedLookDescription (s : GameState) (coordsStr : String) (g : Oracle)
    (hasKey : Bool) : String :=
  match dictLookup coordsStr s.locations with
  | none => "You can\x27t seem to get a good look at this place."
  | some _ => aiGenerateEnhancedLook hasKey g.lookGen

/-- The history bound of `handle_npc_interaction`:
`if len(history) > 5: history = history[-5:]`. -/
def truncate5 (h : List Exchange) : List Exchange :=
  if 5 < h.length then h.drop (h.length - 5) else h

/-- The response string `handle_npc_interaction` formats from an AI turn. -/
def formatNpcAiResponse (npc : Npc) (aiResponse : ConvResp) : String :=
  "\n" ++ npc.name ++ " says in Japanese: \"" ++ aiResponse.response_japanese
    ++ "\"\n" ++ "Translation: \"" ++ aiResponse.response_english ++ "\"\n"
    ++ (match aiResponse.language_note with
        | some n => if n ≠ "" then "\nLanguage Note: " ++ n ++ "\n" else ""
        | none => "")

/-- `SimpleGameEngine.handle_npc_interaction`. -/
def handleNpcInteraction (s : GameState) (npc : Npc) (playerInput : String)
    (g : Oracle) (hasKey : Bool) : GameState × String :=
  if playerInput = "" || !hasKey then
    (s, "\n" ++ npc.name ++ " says: \"" ++ npc.greeting ++ "\"\n"
      ++ "\nYou can have a conversation with NPCs using \x27talk [name] [your message]\x27.\n")
  else
    let history := (dictLookup npc.id s.conversation_history).getD []
    let aiResponse := aiNpcConversation hasKey g.conv
    let response := formatNpcAiResponse npc aiResponse
    let history := truncate5
      (history ++ [{ user := playerInput, assistant := jsonOfConvResp aiResponse }])
    ({ s with conversation_history := dinsert npc.id history s.conversation_history }, response)

/-- `SimpleGameEngine._generate_location_data`: returns the updated engine
state (item/NPC catalogs and conversation histories may grow), the new
location record, and the number of external generation calls made. -/
def generateLocationData (s : GameState) (coords : Int × Int) (setting : String)
    (g : Oracle) (hasKey : Bool) : GameState × Location × Nat :=
  let coordsStr := coordsToStr coords
  let locationId := "loc_" ++ coordsStr
  let aiDetails := aiGenerateLocationDetails hasKey g.locDetails setting coords
  let step1 :=
    match aiGenerateItemDetails hasKey g.itemGen with
    | some data =>
      let newItemId := mkItemId coordsStr s.items.length
      let dataWithId := { data with id := newItemId }
      ({ s with items := dinsert newItemId dataWithId s.items }, [newItemId],
        [dataWithId.name_english])
    | none => (s, [], [])
  let s1 := step1.1
  let newItems := step1.2.1
  let itemNamesForPrompt := step1.2.2
  let step2 :=
    if g.npcRoll then
      match aiGenerateNpcDetails hasKey g.npcGen with
      | some data =>
        let newNpcId := mkNpcId coordsStr s1.npcs.length
        let dataWithId := { data with id := newNpcId }
        let npcs2 := dinsert newNpcId dataWithId s1.npcs
        let conv2 := dinsert newNpcId [] s1.conversation_history
        ({ s1 with npcs := npcs2, conversation_history := conv2 },
          [newNpcId], [dataWithId.name ++ " (the " ++ dataWithId.role ++ ")"])
      | none => (s1, [], [])
    else (s1, [], [])
  let s2 := step2.1
  let newNpcs := step2.2.1
  let npcNamesForPrompt := step2.2.2
  let imagePrompt := aiDetails.description ++ " Setting: " ++ setting
    ++ ". Style: photorealistic."
    ++ (if itemNamesForPrompt.isEmpty then ""
        else " Items visible: " ++ String.intercalate ", " itemNamesForPrompt ++ ".")
    ++ (if npcNamesForPrompt.isEmpty then ""
        else " People present: " ++ String.intercalate ", " npcNamesForPrompt ++ ".")
  let genCalls := if hasKey then 2 + (if g.npcRoll then 1 else 0) else 0
  (s2,
   { id := locationId, name := aiDetails.name, japanese_name := aiDetails.japanese_name,
     description := aiDetails.description, setting := setting, coords := coords,
     exits := [], items := newItems, npcs := newNpcs, image_prompt := imagePrompt },
   genCalls)

/-- The get-or-create core of the `go` branch (`run_game.py` lines 428-439):
look the target coordinate up; only when absent, pick a random setting,
generate the location and store it.  Also reports the number of external
generation calls made. -/
def getOrCreateLocation (s : GameState) (target : Int × Int) (g : Oracle)
    (hasKey : Bool) : GameState × Location × Nat :=
  let tcs := coordsToStr target
  match dictLookup tcs s.locations with
  | some loc => (s, loc, 0)
  | none =>
    let newSetting := pickSetting g
    let r := generateLocationData s target newSetting g hasKey
    ({ r.1 with locations := dinsert tcs r.2.1 r.1.locations }, r.2.1, r.2.2)

/-- Python exceptions that can escape `process_command`. -/
inductive PyErr where
  | indexError
  | keyError
  | attributeError
deriving DecidableEq

deriving instance DecidableEq for Except

/-- Responses of `process_command`: a plain message, the location-view
dictionary, the examine dictionary, or Python `None`. -/
inductive GOut where
  | msg (s : String)
  | view (v : LocView)
  | exam (e : ExamResp)
  | pyNone
deriving DecidableEq

/-- The `go` branch of `process_command` (direction resolution, delta table,
lazy generation, coordinate update, location view). -/
def goDirection (parts : List String) : Option String :=
  match parts with
  | [] => none
  | p0 :: rest =>
    if p0 = "go" || p0 = "move" || p0 = "行く" then
      match rest with
      | d :: _ => some (pyLower d)
      | [] => none
    else if p0 = "north" || p0 = "n" || p0 = "北" then some "north"
    else if p0 = "south" || p0 = "s" || p0 = "南" then some "south"
    else if p0 = "east" || p0 = "e" || p0 = "東" then some "east"
    else if p0 = "west" || p0 = "w" || p0 = "西" then some "west"
    else none

def goCmd (s : GameState) (parts : List String) (g : Oracle) (hasKey : Bool) :
    Except PyErr (GameState × GOut) :=
  match goDirection parts with
  | none => .ok (s, .msg "Where do you want to go? (e.g., \x27go north\x27)")
  | some dir =>
    match directionMap dir with
    | none => .ok (s, .msg ("\x27" ++ dir ++ "\x27 is not a valid direction."))
    | some delta =>
      let target := (s.current_coords.1 + delta.1, s.current_coords.2 + delta.2)
      let tcs := coordsToStr target
      let r := getOrCreateLocation s target g hasKey
      let s2 := { r.1 with current_coords := target }
      match getLocationDescription s2 tcs with
      | some v => .ok (s2, .view v)
      | none => .ok (s2, .pyNone)

/-- The `take` branch of `process_command`. -/
def takeCmd (s : GameState) (targetItemName : String) : Except PyErr (GameState × GOut) :=
  match getItemInLocation s targetItemName with
  | some itemToTake =>
    if !itemToTake.can_be_taken then
      .ok (s, .msg ("You can\x27t take the " ++ itemToTake.name ++ " ("
        ++ itemToTake.name_english ++ "). It seems fixed in place."))
    else
      let itemId := itemToTake.id
      let curStr := coordsToStr s.current_coords
      match dictLookup curStr s.locations with
      | none => .error .keyError
      | some location =>
        let locs2 := dupdate curStr
          (fun loc => { loc with items := loc.items.erase itemId }) s.locations
        let s1 := if itemId ∈ location.items then { s with locations := locs2 } else s
        let s2 := { s1 with player_inventory := s1.player_inventory ++ [itemId] }
        .ok (s2, .msg ("You take the " ++ itemToTake.name ++ " ("
          ++ itemToTake.name_english ++ ")."))
  | none => .ok (s, .msg ("You don\x27t see a \x27" ++ targetItemName ++ "\x27 here."))

/-- The `drop` branch of `process_command`. -/
def dropCmd (s : GameState) (targetItemName : String) : Except PyErr (GameState × GOut) :=
  match getItemInInventory s targetItemName with
  | some itemToDrop =>
    let itemId := itemToDrop.id
    let curStr := coordsToStr s.current_coords
    match dictLookup curStr s.locations with
    | none => .error .keyError
    | some _ =>
      let s1 :=
        if itemId ∈ s.player_inventory then
          { s with player_inventory := s.player_inventory.erase itemId }
        else s
      let locs2 := dupdate curStr
        (fun loc => { loc with items := loc.items ++ [itemId] }) s1.locations
      let s2 := { s1 with locations := locs2 }
      .ok (s2, .msg ("You drop the " ++ itemToDrop.name ++ " ("
        ++ itemToDrop.name_english ++ ")."))
  | none => .ok (s, .msg ("You don\x27t have a \x27" ++ targetItemName
      ++ "\x27 in your inventory."))

/-- The `talk` branch of `process_command` (`parts = p0 :: p1 :: rest`). -/
def talkCmd (s : GameState) (p1 : String) (rest : List String) (g : Oracle)
    (hasKey : Bool) : GameState × GOut :=
  let npcsHereIds :=
    match dictLookup (coordsToStr s.current_coords) s.locations with
    | some loc => loc.npcs
    | none => []
  let num := npcsHereIds.length
  let namesHere := String.intercalate ", "
    (npcsHereIds.filterMap (fun npcId => (dictLookup npcId s.npcs).map Npc.name))
  match getNpcInLocation s (pyLower p1) with
  | some npc =>
    let r := handleNpcInteraction s npc (joinSpace rest) g hasKey
    (r.1, .msg r.2)
  | none =>
    if num = 1 then
      match dictLookup (npcsHereIds.headD "") s.npcs with
      | some npc =>
        let r := handleNpcInteraction s npc (joinSpace (p1 :: rest)) g hasKey
        (r.1, .msg r.2)
      | none =>
        (s, .msg ("You see " ++ namesHere ++ " here, but no one named \x27" ++ p1 ++ "\x27."))
    else if 1 < num then
      (s, .msg ("Who do you want to talk to? Options: " ++ namesHere))
    else (s, .msg "There is no one here to talk to.")

/-- The `examine` branch of `process_command`.  On an item found in the current
location it calls `self.get_ai_item_examination_details`, a method that does
not exist on `SimpleGameEngine`, so Python raises `AttributeError`. -/
def examineCmd (s : GameState) (target : String) (g : Oracle) (hasKey : Bool) :
    Except PyErr (GameState × GOut) :=
  match getItemInInventory s target with
  | some item => .ok (s, .exam (aiGenerateItemExam hasKey g.examGen item))
  | none =>
    match getItemInLocation s target with
    | some _ => .error .attributeError
    | none => .ok (s, .msg ("You don\x27t see a \x27" ++ target
        ++ "\x27 here or in your inventory."))

/-- The `inventory` branch of `process_command`. -/
def inventoryMsg (s : GameState) : String :=
  if s.player_inventory.isEmpty then "Your inventory is empty."
  else "You are carrying:\n" ++ String.intercalate "\n" (s.player_inventory.map
    (fun itemId =>
      match dictLookup itemId s.items with
      | some item => "- " ++ item.name ++ " (" ++ item.name_english ++ ")"
      | none => "- Unknown item (" ++ itemId ++ ")"))

/-- The `themes` branch of `process_command`. -/
def themesMsg (s : GameState) : String :=
  if s.vocabulary_themes.isEmpty then "No vocabulary themes are currently loaded."
  else "Available Vocabulary Themes:\n"
    ++ String.intercalate "\n" (pySort (s.vocabulary_themes.map (fun e =>
        "- **" ++ (e.2.name.getD e.1) ++ "**: " ++ (e.2.description.getD "No description"))))
    ++ "\n\nUse \x27theme [theme_name]\x27 to study a specific theme."

def findTheme (themes : List (String × Theme)) (target : String) : Option Theme :=
  match themes with
  | [] => none
  | e :: t =>
    if pyLower target = pyLower (e.2.name.getD "") || pyLower target = pyLower e.1 then
      some e.2
    else findTheme t target

/-- The `theme [name]` branch of `process_command`. -/
def themeMsg (s : GameState) (target : String) : String :=
  match findTheme s.vocabulary_themes target with
  | some theme =>
    let themeName := theme.name.getD target
    if theme.words.isEmpty then
      "The theme \x27" ++ themeName ++ "\x27 currently has no vocabulary words associated with it."
    else
      "Vocabulary for Theme: **" ++ themeName ++ "**\n"
        ++ String.intercalate "\n" (pySort (theme.words.map (fun vid =>
            match dictLookup vid s.vocabulary with
            | some w => "- " ++ w.japanese ++ " (" ++ w.romaji ++ "): " ++ w.english
            | none => "- (Word ID " ++ vid ++ " not found)")))
  | none =>
    "Could not find a vocabulary theme named \x27" ++ target
      ++ "\x27. Type \x27themes\x27 to see the list."

def findWord (vocab : List (String × VocabWord)) (target : String) : Option VocabWord :=
  match vocab with
  | [] => none
  | e :: t =>
    if target = pyLower e.2.japanese || target = pyLower e.2.romaji
        || target = pyLower e.2.english then some e.2
    else findWord t target

/-- The `learn [word]` branch of `process_command`. -/
def learnMsg (s : GameState) (target : String) : String :=
  match findWord s.vocabulary target with
  | some w =>
    "Learning about: **" ++ w.japanese ++ "**\n\n"
      ++ "- **Romaji:** " ++ w.romaji ++ "\n"
      ++ "- **English:** " ++ w.english ++ "\n"
      ++ "- **Part of Speech:** " ++ (w.part_of_speech.getD "N/A") ++ "\n"
      ++ "- **JLPT Level:** " ++ (w.jlpt_level.getD "N/A") ++ "\n\n"
      ++ (match w.example_sentence with
          | some ex => "**Example:**\n  " ++ ex ++ "\n  (Translation: "
              ++ (w.example_translation.getD "N/A") ++ ")\n\n"
          | none => "")
      ++ (if w.context_categories.isEmpty then ""
          else "**Context:** " ++ String.intercalate ", " w.context_categories ++ "\n")
      ++ (if w.related_words.isEmpty then ""
          else "**Related:** " ++ String.intercalate ", " w.related_words ++ "\n")
      ++ (match w.usage_notes with
          | some un => "\n**Usage Notes:** " ++ un ++ "\n"
          | none => "")
  | none =>
    "Could not find the word \x27" ++ target ++ "\x27 in the current vocabulary list."

def helpText : String :=
  "\nCommands:\n- look: Look at your surroundings\n- examine [object]: Look closely at an item\n- go [direction]: Move in a direction (north, south, east, west)\n- take [item name]: Pick up an item from the location\n- drop [item name]: Leave an item from your inventory here\n- inventory/inv: Check the items you are carrying\n- talk [person]: Talk to a person in the current location\n- talk [person] [message]: Have a conversation with an NPC\n- themes: List available vocabulary themes\n- theme [theme_name]: Show words for a specific theme\n- learn [word]: Show detailed information about a specific vocabulary word\n- help: Show this help\n- quit/exit: Exit the game\n            "

def isGoVerb (p0 : String) : Bool :=
  p0 = "go" || p0 = "move" || p0 = "north" || p0 = "south" || p0 = "east" || p0 = "west"
    || p0 = "n" || p0 = "s" || p0 = "e" || p0 = "w" || p0 = "行く" || p0 = "北"
    || p0 = "南" || p0 = "東" || p0 = "西"

def guardLook (p0 : String) : Bool := p0 = "look" || p0 = "l" || p0 = "見る"

def guardExamine (p0 : String) : Bool := p0 = "examine"

def guardTake (p0 : String) (rest : List String) : Bool :=
  (p0 = "take" || p0 = "get" || p0 = "取る") && !rest.isEmpty

def guardDrop (p0 : String) (rest : List String) : Bool :=
  (p0 = "drop" || p0 = "捨てる") && !rest.isEmpty

def guardInventory (p0 : String) : Bool := p0 = "inventory" || p0 = "inv" || p0 = "持ち物"

def guardTalk (p0 : String) (rest : List String) : Bool :=
  (p0 = "talk" || p0 = "speak" || p0 = "話す") && !rest.isEmpty

def guardThemes (p0 : String) : Bool := p0 = "themes"

def guardTheme (p0 : String) (rest : List String) : Bool := p0 = "theme" && !rest.isEmpty

def guardLearn (p0 : String) (rest : List String) : Bool := p0 = "learn" && !rest.isEmpty

def guardHelp (p0 : String) : Bool := p0 = "help" || p0 = "ヘルプ"

def guardQuit (p0 : String) : Bool := p0 = "quit" || p0 = "exit" || p0 = "終了"

/-- The fixed unknown-command reply: `f"I don\x27t understand \x27{command}\x27. ..."`. -/
def unknownCommandMsg (command : String) : String :=
  "I don\x27t understand \x27" ++ command ++ "\x27. Type \x27help\x27 for a list of commands."

/-- Whether any branch of the `process_command` dispatch chain accepts the
lowercased split command. -/
def recognizedVerb (p0 : String) (rest : List String) : Bool :=
  guardLook p0 || guardExamine p0 || isGoVerb p0 || guardTake p0 rest
    || guardDrop p0 rest || guardInventory p0 || guardTalk p0 rest || guardThemes p0
    || guardTheme p0 rest || guardLearn p0 rest || guardHelp p0 || guardQuit p0

/-- `SimpleGameEngine.process_command`.  `parts = command.lower().split()`;
`parts[0]` on an empty command raises `IndexError`. -/
def processCommand (s : GameState) (command : String) (g : Oracle) (hasKey : Bool) :
    Except PyErr (GameState × GOut) :=
  match pySplit (pyLower command) with
  | [] => .error .indexError
  | p0 :: rest =>
    if guardLook p0 then
      if rest.isEmpty then
        .ok (s, .msg (getAiEnhancedLookDescription s (coordsToStr s.current_coords) g hasKey))
      else
        .ok (s, .msg ("To look at something specific, use \x27examine [target]\x27. To look around, just type \x27look\x27."))
    else if guardExamine p0 then
      if rest.isEmpty then
        .ok (s, .msg "What do you want to examine? (e.g., \x27examine [item/person]\x27)")
      else examineCmd s (joinSpace rest) g hasKey
    else if isGoVerb p0 then goCmd s (p0 :: rest) g hasKey
    else if guardTake p0 rest then takeCmd s (joinSpace rest)
    else if guardDrop p0 rest then dropCmd s (joinSpace rest)
    else if guardInventory p0 then .ok (s, .msg (inventoryMsg s))
    else if guardTalk p0 rest then
      match rest with
      | p1 :: rest2 => .ok (talkCmd s p1 rest2 g hasKey)
      | [] => .ok (s, .msg (unknownCommandMsg command))
    else if guardThemes p0 then .ok (s, .msg (themesMsg s))
    else if guardTheme p0 rest then .ok (s, .msg (themeMsg s (joinSpace rest)))
    else if guardLearn p0 rest then .ok (s, .msg (learnMsg s (joinSpace rest)))
    else if guardHelp p0 then .ok (s, .msg helpText)
    else if guardQuit p0 then .ok (s, .msg "exit")
    else .ok (s, .msg (unknownCommandMsg command))

/-- `SimpleGameEngine.__init__` followed by `load_game_data`: empty catalogs,
loaded vocabulary/themes, and the generated starting location at `(0, 0)`
with the fixed setting `"Quiet Shopping Street"`. -/
def initialState (vocabData : List VocabWord) (themesData : List Theme)
    (jlpt : String) (g : Oracle) (hasKey : Bool) : GameState :=
  let s0 : GameState :=
    { locations := [], items := [], npcs := [],
      vocabulary := vocabData.foldl (fun d w => dinsert w.id w d) [],
      vocabulary_themes := themesData.foldl (fun d t => dinsert t.id t d) [],
      player_inventory := [],
      player_jlpt_level := jlpt,
      conversation_history := [],
      current_coords := (0, 0) }
  let r := generateLocationData s0 (0, 0) "Quiet Shopping Street" g hasKey
  { r.1 with locations := dinsert (coordsToStr (0, 0)) r.2.1 r.1.locations,
             current_coords := (0, 0) }

/-- States reachable from a freshly loaded engine by processing commands
(`HAS_AI_CLIENT` is fixed per process). -/
inductive Reachable (hasKey : Bool) : GameState → Prop where
  | init : ∀ (vocabData : List VocabWord) (themesData : List Theme) (jlpt : String)
      (g : Oracle), Reachable hasKey (initialState vocabData themesData jlpt g hasKey)
  | step : ∀ {s s' : GameState} {cmd : String} {g : Oracle} {out : GOut},
      Reachable hasKey s → processCommand s cmd g hasKey = .ok (s', out) →
      Reachable hasKey s'


/-! ## ImageClient (`app/utils/image_client.py`) -/

/-- The canonical on-disk path for a location image. -/
def imagePathFor (locationId : String) : String := "data/images/" ++ locationId ++ ".jpg"

/-- Outcome of one attempted Eden-AI image generation (API call plus download):
success, or any failure (non-2xx status, malformed response, missing URL,
failed download, network error, timeout). -/
inductive ImgOutcome where
  | ok
  | fail
deriving DecidableEq

/-- `ImageClient.generate_location_image`: returns the existing path without an
API call when the file is on disk and `force_new` is false; returns `None`
when the API key is missing or on any generation failure.  The `Nat` component
counts image-API calls made. -/
def generateLocationImage (disk : String → Bool) (hasImgKey : Bool)
    (locationId : String) (forceNew : Bool) (o : ImgOutcome) :
    Option String × Nat :=
  let imagePath := imagePathFor locationId
  if disk imagePath && !forceNew then (some imagePath, 0)
  else if !hasImgKey then (none, 0)
  else
    match o with
    | .ok => (some imagePath, 1)
    | .fail => (none, 1)

/-- `ImageClient.get_image_url_for_web`. -/
def getImageUrlForWeb (disk : String → Bool) (locationId : String) : String :=
  if disk ("data/images/" ++ locationId ++ ".jpg") then "/images/" ++ locationId ++ ".jpg"
  else "/images/placeholder.jpg"

/-! ## Supporting lemmas for the claims -/

theorem goCmd_ok (s : GameState) (g : Oracle) (hk : Bool) (p : List String)
    (d : String) (delta : Int × Int)
    (hdir : goDirection p = some d) (hdm : directionMap d = some delta) :
    ∃ out, goCmd s p g hk =
      .ok ({ (getOrCreateLocation s
                (s.current_coords.1 + delta.1, s.current_coords.2 + delta.2) g hk).1
              with current_coords :=
                (s.current_coords.1 + delta.1, s.current_coords.2 + delta.2) }, out) := by
  simp only [goCmd, hdir, hdm]
  rcases hx : getLocationDescription
      { (getOrCreateLocation s
            (s.current_coords.1 + delta.1, s.current_coords.2 + delta.2) g hk).1
          with current_coords :=
            (s.current_coords.1 + delta.1, s.current_coords.2 + delta.2) }
      (coordsToStr (s.current_coords.1 + delta.1, s.current_coords.2 + delta.2)) with
    _ | v <;> simp [hx]

theorem getOrCreateLocation_cached {s : GameState} {tc : Int × Int} {loc : Location}
    (g : Oracle) (hk : Bool)
    (hcached : dictLookup (coordsToStr tc) s.locations = some loc) :
    getOrCreateLocation s tc g hk = (s, loc, 0) := by
  simp [getOrCreateLocation, hcached]

theorem goCmd_ok_fields (s : GameState) (g : Oracle) (hk : Bool) (p : List String)
    (d : String) (delta : Int × Int)
    (hdir : goDirection p = some d) (hdm : directionMap d = some delta) :
    ∃ s2 out, goCmd s p g hk = .ok (s2, out)
      ∧ s2.current_coords = (s.current_coords.1 + delta.1, s.current_coords.2 + delta.2)
      ∧ s2.locations = (getOrCreateLocation s
          (s.current_coords.1 + delta.1, s.current_coords.2 + delta.2) g hk).1.locations
      ∧ s2.items = (getOrCreateLocation s
          (s.current_coords.1 + delta.1, s.current_coords.2 + delta.2) g hk).1.items
      ∧ s2.npcs = (getOrCreateLocation s
          (s.current_coords.1 + delta.1, s.current_coords.2 + delta.2) g hk).1.npcs := by
  obtain ⟨out, h⟩ := goCmd_ok s g hk p d delta hdir hdm
  exact ⟨_, out, h, rfl, rfl, rfl, rfl⟩

/-! ## Claim C3 -/

/-- C3: movement uses exactly the deltas north=(0,1), south=(0,-1), east=(1,0),
west=(-1,0); and from any state, processing `go north` then `go south` returns
the player\x27s current coordinate to its original value. -/
theorem movement_deltas_roundtrip :
    (directionMap "north" = some (0, 1) ∧ directionMap "south" = some (0, -1)
      ∧ directionMap "east" = some (1, 0) ∧ directionMap "west" = some (-1, 0))
    ∧ ∀ (s : GameState) (g g' : Oracle) (hk : Bool),
        ∃ s1 o1 s2 o2,
          processCommand s "go north" g hk = .ok (s1, o1)
          ∧ processCommand s1 "go south" g' hk = .ok (s2, o2)
          ∧ s2.current_coords = s.current_coords := by
  refine ⟨⟨rfl, rfl, rfl, rfl⟩, ?_⟩
  intro s g g' hk
  obtain ⟨s1, o1, h1, hc1, -, -, -⟩ :=
    goCmd_ok_fields s g hk ["go", "north"] "north" (0, 1) rfl rfl
  obtain ⟨s2, o2, h2, hc2, -, -, -⟩ :=
    goCmd_ok_fields s1 g' hk ["go", "south"] "south" (0, -1) rfl rfl
  refine ⟨s1, o1, s2, o2, ?_, ?_, ?_⟩
  · exact (show processCommand s "go north" g hk
      = goCmd s ["go", "north"] g hk from rfl).trans h1
  · exact (show processCommand s1 "go south" g' hk
      = goCmd s1 ["go", "south"] g' hk from rfl).trans h2
  · rw [hc2, hc1]
    rw [Prod.ext_iff]
    constructor
    · show (s.current_coords.1 + 0) + 0 = s.current_coords.1
      omega
    · show (s.current_coords.2 + 1) + (-1) = s.current_coords.2
      omega

/-! ## Claim C1 -/

/-- C1: creating a location at a fresh coordinate is total: even when the API
key is missing or every generation call fails, the location stored in the grid
and returned carries the deterministic fallback name and description
synthesized from the setting and the coordinate, both non-empty; no error is
returned (the operation is a total function). -/
theorem location_creation_total (s : GameState) (tc : Int × Int) (g : Oracle) (hk : Bool)
    (hnew : dictLookup (coordsToStr tc) s.locations = none)
    (hfail : hk = false ∨ (g.locDetails = none ∧ g.itemGen = none ∧ g.npcGen = none)) :
    dictLookup (coordsToStr tc) (getOrCreateLocation s tc g hk).1.locations
        = some (getOrCreateLocation s tc g hk).2.1
    ∧ (getOrCreateLocation s tc g hk).2.1.name = pickSetting g ++ " at " ++ tupleStr tc
    ∧ (getOrCreateLocation s tc g hk).2.1.description
        = "A procedurally generated " ++ pyLower (pickSetting g) ++ " at "
          ++ tupleStr tc ++ " (AI fallback)."
    ∧ (getOrCreateLocation s tc g hk).2.1.name ≠ ""
    ∧ (getOrCreateLocation s tc g hk).2.1.description ≠ "" := by
  have hai : aiGenerateLocationDetails hk g.locDetails (pickSetting g) tc =
      { name := pickSetting g ++ " at " ++ tupleStr tc,
        japanese_name := pickSetting g ++ " (" ++ Int.repr tc.1 ++ "," ++ Int.repr tc.2 ++ ")",
        description := "A procedurally generated " ++ pyLower (pickSetting g) ++ " at "
          ++ tupleStr tc ++ " (AI fallback)." } := by
    rcases hfail with hf | ⟨hf1, -, -⟩
    · subst hf; rfl
    · rw [hf1]; cases hk <;> rfl
  have hname : (getOrCreateLocation s tc g hk).2.1.name
      = pickSetting g ++ " at " ++ tupleStr tc := by
    simp only [getOrCreateLocation, hnew, generateLocationData]
    rw [hai]
  have hdesc : (getOrCreateLocation s tc g hk).2.1.description
      = "A procedurally generated " ++ pyLower (pickSetting g) ++ " at "
        ++ tupleStr tc ++ " (AI fallback)." := by
    simp only [getOrCreateLocation, hnew, generateLocationData]
    rw [hai]
  refine ⟨?_, hname, hdesc, ?_, ?_⟩
  · simp only [getOrCreateLocation, hnew]
    exact dictLookup_dinsert_self _ _ _
  · rw [hname]
    intro hname0
    have hd : ((pickSetting g).data ++ " at ".data) ++ (tupleStr tc).data = ([] : List Char) := by
      have := congrArg String.data hname0
      simp only [String.data_append] at this
      exact this
    have h2 := (List.append_eq_nil.mp hd).1
    have h3 := (List.append_eq_nil.mp h2).2
    exact absurd h3 (by decide)
  · rw [hdesc]
    intro hdesc0
    have hd : ("A procedurally generated ".data ++ (pyLower (pickSetting g)).data
        ++ " at ".data ++ (tupleStr tc).data) ++ " (AI fallback).".data = ([] : List Char) := by
      have := congrArg String.data hdesc0
      simp only [String.data_append, List.append_assoc] at this
      simp only [List.append_assoc]
      exact this
    have h2 := (List.append_eq_nil.mp hd).2
    exact absurd h2 (by decide)

/-! ## Shared concrete fixtures for witnesses and counterexamples -/

def wOracleFail : Oracle :=
  { settingIdx := 0, locDetails := none, itemGen := none, npcRoll := false,
    npcGen := none, conv := .err "boom", lookGen := .fail "boom", examGen := none }

def wStateEmpty : GameState :=
  { locations := [], items := [], npcs := [], vocabulary := [], vocabulary_themes := [],
    player_inventory := [], player_jlpt_level := "N5", conversation_history := [],
    current_coords := (0, 0) }

/-- C1 witness: the theorem applied at a concrete fresh coordinate with the
all-fail oracle and no API key. -/
theorem location_creation_total_witness :
    (dictLookup (coordsToStr (3, -2)) wStateEmpty.locations = none)
    ∧ (false = false ∨ (wOracleFail.locDetails = none ∧ wOracleFail.itemGen = none
        ∧ wOracleFail.npcGen = none))
    ∧ ((getOrCreateLocation wStateEmpty (3, -2) wOracleFail false).2.1.name ≠ ""
    ∧ (getOrCreateLocation wStateEmpty (3, -2) wOracleFail false).2.1.description ≠ "") := by
  refine ⟨by decide, Or.inl rfl, ?_, ?_⟩
  · exact (location_creation_total wStateEmpty (3, -2) wOracleFail false
      (by decide) (Or.inl rfl)).2.2.2.1
  · exact (location_creation_total wStateEmpty (3, -2) wOracleFail false
      (by decide) (Or.inl rfl)).2.2.2.2

/-! ## Claim C2 -/

/-- C2: for a coordinate already present in the grid, the get-or-create core
returns exactly the stored location record with zero generation calls and the
state fully unchanged; and a movement into such a coordinate leaves the grid,
the item catalog and the NPC catalog unchanged. -/
theorem location_creation_idempotent (s : GameState) (tc : Int × Int) (g : Oracle)
    (hk : Bool) (loc : Location)
    (hcached : dictLookup (coordsToStr tc) s.locations = some loc) :
    getOrCreateLocation s tc g hk = (s, loc, 0)
    ∧ ∀ (p : List String) (d : String) (delta : Int × Int) (s2 : GameState) (out : GOut),
        goDirection p = some d → directionMap d = some delta →
        (s.current_coords.1 + delta.1, s.current_coords.2 + delta.2) = tc →
        goCmd s p g hk = .ok (s2, out) →
        s2.locations = s.locations ∧ s2.items = s.items ∧ s2.npcs = s.npcs := by
  have hcore := getOrCreateLocation_cached g hk hcached
  refine ⟨hcore, ?_⟩
  intro p d delta s2 out hdir hdm htc hgo
  obtain ⟨out', h'⟩ := goCmd_ok s g hk p d delta hdir hdm
  rw [htc, hcore] at h'
  rw [h'] at hgo
  have hs2 : s2 = { s with current_coords := tc } := by
    have := (Except.ok.injEq _ _).mp hgo
    exact (congrArg Prod.fst this.symm)
  subst hs2
  exact ⟨rfl, rfl, rfl⟩

def wLocCached : Location :=
  { id := "loc_1,0", name := "Old Gate", japanese_name := "古い門",
    description := "A gate.", setting := "Path near a Small Shrine", coords := (1, 0),
    exits := [], items := [], npcs := [], image_prompt := "p" }

def wStateCached : GameState :=
  { wStateEmpty with locations := [("1,0", wLocCached)] }

/-- C2 witness: the theorem applied at a concrete stored coordinate. -/
theorem location_creation_idempotent_witness :
    (dictLookup (coordsToStr (1, 0)) wStateCached.locations = some wLocCached)
    ∧ getOrCreateLocation wStateCached (1, 0) wOracleFail true
        = (wStateCached, wLocCached, 0) := by
  refine ⟨by decide, ?_⟩
  exact (location_creation_idempotent wStateCached (1, 0) wOracleFail true wLocCached
    (by decide)).1

/-! ## Claim C6 -/

/-- C6 counterexample: with no image on disk, no API key and a failing call,
`generate_location_image` returns `None` (Python `None`), not a placeholder
path — so image retrieval through it is not total. -/
theorem image_retrieval_counterexample :
    generateLocationImage (fun _ => false) false "loc_0,0" false ImgOutcome.fail
      = (none, 0)
    ∧ generateLocationImage (fun _ => false) true "loc_0,0" false ImgOutcome.fail
      = (none, 1) := ⟨rfl, rfl⟩

/-- C6 (amended): if the image file exists on disk (and `force_new` is false),
`generate_location_image` returns that path with zero API calls regardless of
the API outcome; on missing key or any generation failure it returns `None`
(not a placeholder).  Only the web-URL helper `get_image_url_for_web` is
total: it returns the canonical URL when the file exists and the stable
placeholder path otherwise, never `None`. -/
theorem image_retrieval_behaviour :
    (∀ (disk : String → Bool) (k : Bool) (id : String) (o : ImgOutcome),
        disk (imagePathFor id) = true →
        generateLocationImage disk k id false o = (some (imagePathFor id), 0))
    ∧ (∀ (disk : String → Bool) (k : Bool) (id : String) (o : ImgOutcome),
        disk (imagePathFor id) = false → (k = false ∨ o = ImgOutcome.fail) →
        (generateLocationImage disk k id false o).1 = none)
    ∧ (∀ (disk : String → Bool) (id : String),
        (disk (imagePathFor id) = false →
          getImageUrlForWeb disk id = "/images/placeholder.jpg")
        ∧ (disk (imagePathFor id) = true →
          getImageUrlForWeb disk id = "/images/" ++ id ++ ".jpg")) := by
  refine ⟨?_, ?_, ?_⟩
  · intro disk k id o hdisk
    simp [generateLocationImage, hdisk]
  · intro disk k id o hdisk hf
    rcases hf with hf | hf
    · subst hf; simp [generateLocationImage, hdisk]
    · subst hf; cases k <;> simp [generateLocationImage, hdisk]
  · intro disk id
    constructor
    · intro hdisk
      simp [getImageUrlForWeb, imagePathFor] at hdisk ⊢
      simp [hdisk]
    · intro hdisk
      simp [getImageUrlForWeb, imagePathFor] at hdisk ⊢
      simp [hdisk]

/-- C6 witness: the amended theorem applied with a concrete one-file disk. -/
theorem image_retrieval_behaviour_witness :
    ((fun p => p = imagePathFor "loc_0,0" : String → Bool) (imagePathFor "loc_0,0") = true)
    ∧ generateLocationImage (fun p => p = imagePathFor "loc_0,0") false "loc_0,0" false
        ImgOutcome.fail = (some (imagePathFor "loc_0,0"), 0)
    ∧ getImageUrlForWeb (fun _ => false) "loc_9,9" = "/images/placeholder.jpg" := by
  refine ⟨by decide, ?_, ?_⟩
  · exact image_retrieval_behaviour.1 (fun p => p = imagePathFor "loc_0,0") false "loc_0,0"
      ImgOutcome.fail (by decide)
  · exact (image_retrieval_behaviour.2.2 (fun _ => false) "loc_9,9").1 rfl

/-! ## Claim C7 -/

def wStateLoc0 : GameState :=
  { wStateEmpty with locations := [("0,0",
      { id := "loc_0,0", name := "Street", japanese_name := "通り", description := "d",
        setting := "Quiet Shopping Street", coords := (0, 0), exits := [], items := [],
        npcs := [], image_prompt := "p" })] }

/-- C7 counterexample: processing the empty command raises `IndexError`
(`parts[0]` on an empty list), so command processing is not exception-free. -/
theorem empty_command_raises :
    processCommand wStateLoc0 "" wOracleFail true = .error .indexError
    ∧ processCommand wStateLoc0 "   " wOracleFail true = .error .indexError := ⟨rfl, rfl⟩

/-- C7 (amended): a non-empty command whose first token matches no dispatch
branch yields the fixed unknown-command message and leaves the state fully
unchanged; but the empty (or all-whitespace) command raises `IndexError`
instead of being answered. -/
theorem unknown_command_fixed_message :
    (∀ (s : GameState) (cmd : String) (g : Oracle) (hk : Bool) (p0 : String)
        (rest : List String),
      pySplit (pyLower cmd) = p0 :: rest → recognizedVerb p0 rest = false →
      processCommand s cmd g hk = .ok (s, .msg (unknownCommandMsg cmd)))
    ∧ ∀ (s : GameState) (g : Oracle) (hk : Bool),
        processCommand s "" g hk = .error .indexError := by
  constructor
  · intro s cmd g hk p0 rest hparts hnr
    simp only [recognizedVerb, Bool.or_eq_false_iff] at hnr
    obtain ⟨⟨⟨⟨⟨⟨⟨⟨⟨⟨⟨h1, h2⟩, h3⟩, h4⟩, h5⟩, h6⟩, h7⟩, h8⟩, h9⟩, h10⟩, h11⟩, h12⟩ := hnr
    simp only [processCommand, hparts, h1, h2, h3, h4, h5, h6, h7, h8, h9, h10, h11, h12,
      Bool.false_eq_true, if_false]
  · intro s g hk
    rfl

/-- C7 witness: the amended theorem applied to a concrete unknown command. -/
theorem unknown_command_fixed_message_witness :
    (pySplit (pyLower "dance Party") = "dance" :: ["party"])
    ∧ (recognizedVerb "dance" ["party"] = false)
    ∧ processCommand wStateLoc0 "dance Party" wOracleFail true
        = .ok (wStateLoc0, .msg (unknownCommandMsg "dance Party"))
    ∧ processCommand wStateLoc0 "" wOracleFail true = .error .indexError := by
  refine ⟨by decide, by decide, ?_, ?_⟩
  · exact unknown_command_fixed_message.1 wStateLoc0 "dance Party" wOracleFail true
      "dance" ["party"] (by decide) (by decide)
  · exact unknown_command_fixed_message.2 wStateLoc0 wOracleFail true

/-! ## Claim C5 -/

def wNpc : Npc :=
  { id := "npc_0,0_0", name := "田中", name_english := "Tanaka", japanese_name := "",
    romaji := "", short_description := "A shopkeeper.", role := "Shopkeeper",
    personality := "Friendly", greeting := "こんにちは", vocabulary := [] }

def wStateNpc : GameState :=
  { wStateEmpty with
    npcs := [("npc_0,0_0", wNpc)]
    conversation_history := [("npc_0,0_0", [])] }

/-- C5 counterexample: when the generation call fails entirely (exception),
`npc_conversation` returns the fixed technical-difficulty dictionary as a
normal value, and `handle_npc_interaction` appends the turn to the NPC\x27s
history — the history is *not* left unchanged. -/
theorem npc_failure_mutates_history :
    (aiNpcConversation true (.err "boom")).response_japanese = "すみません、技術的な問題があります。"
    ∧ (handleNpcInteraction wStateNpc wNpc "hello" wOracleFail true).2
        = formatNpcAiResponse wNpc (aiNpcConversation true (.err "boom"))
    ∧ dictLookup "npc_0,0_0"
        (handleNpcInteraction wStateNpc wNpc "hello" wOracleFail true).1.conversation_history
      = some [{ user := "hello",
                assistant := jsonOfConvResp (aiNpcConversation true (.err "boom")) }]
    ∧ dictLookup "npc_0,0_0"
        (handleNpcInteraction wStateNpc wNpc "hello" wOracleFail true).1.conversation_history
      ≠ dictLookup "npc_0,0_0" wStateNpc.conversation_history := by
  refine ⟨rfl, rfl, by decide, by decide⟩

/-- C5 (amended): on total GenerationClient failure the turn returns the fixed
in-character technical-difficulty response, but the
`(player_utterance, fallback_response)` pair *is* appended to the NPC\x27s
stored history like a normal turn (evicting the oldest entry past 5). -/
theorem npc_failure_fallback_appends (s : GameState) (npc : Npc) (input : String)
    (g : Oracle) (m : String) (hne : input ≠ "") (hc : g.conv = .err m) :
    (handleNpcInteraction s npc input g true).2
      = formatNpcAiResponse npc (aiNpcConversation true (.err m))
    ∧ (aiNpcConversation true (.err m)).response_japanese = "すみません、技術的な問題があります。"
    ∧ dictLookup npc.id (handleNpcInteraction s npc input g true).1.conversation_history
      = some (truncate5 ((dictLookup npc.id s.conversation_history).getD []
          ++ [{ user := input,
                assistant := jsonOfConvResp (aiNpcConversation true (.err m)) }])) := by
  have hcond : (decide (input = "") || !true) = false := by simp [hne]
  refine ⟨?_, rfl, ?_⟩
  · simp only [handleNpcInteraction, hcond, Bool.false_eq_true, if_false, hc]
  · simp only [handleNpcInteraction, hcond, Bool.false_eq_true, if_false, hc]
    exact dictLookup_dinsert_self _ _ _

/-- C5 witness: the amended theorem applied at a concrete failing turn. -/
theorem npc_failure_fallback_appends_witness :
    ("hello" ≠ "") ∧ (wOracleFail.conv = ConvOutcome.err "boom")
    ∧ dictLookup wNpc.id
        (handleNpcInteraction wStateNpc wNpc "hello" wOracleFail true).1.conversation_history
      = some (truncate5 ((dictLookup wNpc.id wStateNpc.conversation_history).getD []
          ++ [{ user := "hello",
                assistant := jsonOfConvResp (aiNpcConversation true (.err "boom")) }])) := by
  refine ⟨by decide, rfl, ?_⟩
  exact (npc_failure_fallback_appends wStateNpc wNpc "hello" wOracleFail "boom"
    (by decide) rfl).2.2

/-! ## Claim C10 -/

/-- C10: taking an item whose `can_be_taken` flag is false is rejected with the
fixed in-place message and leaves the whole state (location item lists, player
inventory, coordinates) unchanged. -/
theorem take_untakable_rejected (s : GameState) (cmd : String) (g : Oracle) (hk : Bool)
    (p0 r1 : String) (rest2 : List String) (it : Item)
    (hparts : pySplit (pyLower cmd) = p0 :: r1 :: rest2)
    (hverb : p0 = "take" ∨ p0 = "get" ∨ p0 = "取る")
    (hfound : getItemInLocation s (joinSpace (r1 :: rest2)) = some it)
    (htake : it.can_be_taken = false) :
    processCommand s cmd g hk
      = .ok (s, .msg ("You can\x27t take the " ++ it.name ++ " ("
          ++ it.name_english ++ "). It seems fixed in place.")) := by
  rcases hverb with h | h | h <;> subst h <;>
    · simp only [processCommand, hparts]
      rw [if_neg (by decide), if_neg (by decide), if_neg (by decide),
        if_pos (show guardTake _ (r1 :: rest2) = true by simp [guardTake])]
      simp [takeCmd, hfound, htake]

def wItemFixed : Item :=
  { id := "item_0,0_0", name := "石像", name_english := "Stone Statue",
    name_romaji := "sekizou", japanese_name := "", description := "A stone statue.",
    can_be_taken := false, vocabulary := [] }

def wLocTake : Location :=
  { id := "loc_0,0", name := "Square", japanese_name := "広場", description := "d",
    setting := "Small Urban Park", coords := (0, 0), exits := [],
    items := ["item_0,0_0"], npcs := [], image_prompt := "p" }

def wStateTake : GameState :=
  { wStateEmpty with
    locations := [("0,0", wLocTake)]
    items := [("item_0,0_0", wItemFixed)] }

/-- C10 witness: the theorem applied to a concrete non-takable item. -/
theorem take_untakable_rejected_witness :
    (pySplit (pyLower "take statue") = "take" :: "statue" :: [])
    ∧ getItemInLocation wStateTake (joinSpace ["statue"]) = some wItemFixed
    ∧ wItemFixed.can_be_taken = false
    ∧ processCommand wStateTake "take statue" wOracleFail true
      = .ok (wStateTake, .msg ("You can\x27t take the " ++ wItemFixed.name ++ " ("
          ++ wItemFixed.name_english ++ "). It seems fixed in place.")) := by
  refine ⟨by decide, by decide, rfl, ?_⟩
  exact take_untakable_rejected wStateTake "take statue" wOracleFail true
    "take" "statue" [] wItemFixed (by decide) (Or.inl rfl) (by decide) rfl

/-! ## Claim C4 -/

/-- The exchange one successful AI turn appends for turn input and oracle `t`. -/
def mkExch (t : String × Oracle) : Exchange :=
  { user := t.1, assistant := jsonOfConvResp (aiNpcConversation true t.2.conv) }

theorem truncate5_foldl (es : List Exchange) :
    es.foldl (fun h e => truncate5 (h ++ [e])) [] = es.drop (es.length - 5) := by
  induction es using List.reverseRecOn with
  | nil => rfl
  | append_singleton es e ih =>
    rw [List.foldl_append, ih]
    simp only [List.foldl_cons, List.foldl_nil]
    by_cases h5 : es.length < 5
    · rw [truncate5, if_neg]
      · rw [show es.length - 5 = 0 from by omega]
        rw [show (es ++ [e]).length - 5 = 0 from by
          simp only [List.length_append, List.length_cons, List.length_nil]; omega]
        simp
      · simp only [List.length_append, List.length_drop, List.length_cons, List.length_nil]
        omega
    · rw [truncate5, if_pos]
      swap
      · simp only [List.length_append, List.length_drop, List.length_cons, List.length_nil]
        omega
      rw [show (es.drop (es.length - 5) ++ [e]).length - 5 = 1 from by
        simp only [List.length_append, List.length_drop, List.length_cons, List.length_nil]
        omega]
      rw [List.drop_append_of_le_length (by simp only [List.length_drop]; omega)]
      rw [List.drop_drop]
      rw [show (es ++ [e]).length - 5 = es.length - 4 from by
        simp only [List.length_append, List.length_cons, List.length_nil]; omega]
      rw [List.drop_append_of_le_length (by omega)]
      rw [show es.length - 5 + 1 = es.length - 4 from by omega]

theorem conv_fold_history (npc : Npc) (turns : List (String × Oracle)) :
    ∀ (s0 : GameState), (∀ t ∈ turns, t.1 ≠ "") →
    ((turns ≠ [] → dictLookup npc.id
        (turns.foldl (fun s t => (handleNpcInteraction s npc t.1 t.2 true).1)
          s0).conversation_history
      = some (turns.foldl (fun h t => truncate5 (h ++ [mkExch t]))
          ((dictLookup npc.id s0.conversation_history).getD []))))
    ∧ ∀ other, other ≠ npc.id →
        dictLookup other
          (turns.foldl (fun s t => (handleNpcInteraction s npc t.1 t.2 true).1)
            s0).conversation_history
        = dictLookup other s0.conversation_history := by
  induction turns with
  | nil =>
    intro s0 _
    exact ⟨fun h => absurd rfl h, fun other _ => rfl⟩
  | cons t ts ih =>
    intro s0 hin
    have htne : t.1 ≠ "" := hin t (List.mem_cons_self _ _)
    have hcond : (decide (t.1 = "") || !true) = false := by simp [htne]
    have hstep : (handleNpcInteraction s0 npc t.1 t.2 true).1.conversation_history
        = dinsert npc.id
            (truncate5 ((dictLookup npc.id s0.conversation_history).getD []
              ++ [mkExch t]))
            s0.conversation_history := by
      simp only [handleNpcInteraction, hcond, Bool.false_eq_true, if_false, mkExch]
    have hintail : ∀ u ∈ ts, u.1 ≠ "" := fun u hu => hin u (List.mem_cons_of_mem _ hu)
    obtain ⟨ih1, ih2⟩ := ih ((handleNpcInteraction s0 npc t.1 t.2 true).1) hintail
    have hlook : dictLookup npc.id
        ((handleNpcInteraction s0 npc t.1 t.2 true).1).conversation_history
        = some (truncate5 ((dictLookup npc.id s0.conversation_history).getD []
            ++ [mkExch t])) := by
      rw [hstep]
      exact dictLookup_dinsert_self _ _ _
    constructor
    · intro _
      simp only [List.foldl_cons]
      rcases hts : ts with _ | ⟨u, us⟩
      · simp only [List.foldl_nil]
        rw [hlook]
      · rw [← hts]
        have := ih1 (by rw [hts]; exact List.cons_ne_nil _ _)
        rw [this, hlook]
        simp
    · intro other hother
      simp only [List.foldl_cons]
      rw [ih2 other hother, hstep]
      exact dictLookup_dinsert_ne _ _ hother

/-- C4: after `5 + k` successful AI conversation turns with one NPC (k ≥ 1,
starting from an empty history), the stored history is exactly the 5 most
recent `(player_utterance, response)` pairs in chronological order (the oldest
`k` evicted), has length exactly 5, and the histories of all other NPCs are
unchanged. -/
theorem conversation_ring_bound (npc : Npc) (turns : List (String × Oracle))
    (s0 : GameState) (k : Nat) (hk1 : 1 ≤ k) (hlen : turns.length = 5 + k)
    (hinputs : ∀ t ∈ turns, t.1 ≠ "")
    (hstart : (dictLookup npc.id s0.conversation_history).getD [] = []) :
    dictLookup npc.id
        (turns.foldl (fun s t => (handleNpcInteraction s npc t.1 t.2 true).1)
          s0).conversation_history
      = some ((turns.map mkExch).drop k)
    ∧ ((turns.map mkExch).drop k).length = 5
    ∧ ∀ other, other ≠ npc.id →
        dictLookup other
          (turns.foldl (fun s t => (handleNpcInteraction s npc t.1 t.2 true).1)
            s0).conversation_history
        = dictLookup other s0.conversation_history := by
  obtain ⟨h1, h2⟩ := conv_fold_history npc turns s0 hinputs
  have hne : turns ≠ [] := by
    intro h
    rw [h] at hlen
    simp only [List.length_nil] at hlen
    omega
  refine ⟨?_, ?_, h2⟩
  · rw [h1 hne, hstart]
    have hmap : turns.foldl (fun h t => truncate5 (h ++ [mkExch t])) []
        = (turns.map mkExch).foldl (fun h e => truncate5 (h ++ [e])) [] := by
      rw [List.foldl_map]
    rw [hmap, truncate5_foldl]
    congr 1
    simp [hlen]
  · simp [hlen]

def wTurns : List (String × Oracle) :=
  [("t1", wOracleFail), ("t2", wOracleFail), ("t3", wOracleFail),
   ("t4", wOracleFail), ("t5", wOracleFail), ("t6", wOracleFail)]

/-- C4 witness: the theorem applied to six concrete turns (k = 1). -/
theorem conversation_ring_bound_witness :
    (1 ≤ 1) ∧ (wTurns.length = 5 + 1) ∧ (∀ t ∈ wTurns, t.1 ≠ "")
    ∧ ((dictLookup wNpc.id wStateNpc.conversation_history).getD [] = [])
    ∧ dictLookup wNpc.id
        (wTurns.foldl (fun s t => (handleNpcInteraction s wNpc t.1 t.2 true).1)
          wStateNpc).conversation_history
      = some ((wTurns.map mkExch).drop 1)
    ∧ ((wTurns.map mkExch).drop 1).length = 5 := by
  refine ⟨by decide, by decide, by decide, by decide, ?_, ?_⟩
  · exact (conversation_ring_bound wNpc wTurns wStateNpc 1 (by decide) (by decide)
      (by decide) (by decide)).1
  · exact (conversation_ring_bound wNpc wTurns wStateNpc 1 (by decide) (by decide)
      (by decide) (by decide)).2.1

/-! ## Ownership and identifier invariants (claims C8, C9) -/

/-- Total number of occurrences of `id` across all location item lists. -/
def locItemsCount (l : List (String × Location)) (id : String) : Nat :=
  (l.map (fun e => e.2.items.count id)).sum

/-- Total number of containers holding `id`: location item lists plus the
player inventory (with multiplicity). -/
def ownCount (s : GameState) (id : String) : Nat :=
  locItemsCount s.locations id + s.player_inventory.count id

/-- The engine-state invariant maintained by `load_game_data` and every
processed command. -/
structure EngineInv (s : GameState) : Prop where
  cur : (dictLookup (coordsToStr s.current_coords) s.locations).isSome
  locKeys : (dkeys s.locations).Nodup
  itemShape : ∀ e ∈ s.items, e.2.id = e.1
    ∧ ∃ p n, e.1 = mkItemId (coordsToStr p) n ∧ n < s.items.length
  npcShape : ∀ e ∈ s.npcs, e.2.id = e.1
    ∧ ∃ p n, e.1 = mkNpcId (coordsToStr p) n ∧ n < s.npcs.length
  own : ∀ id, ownCount s id = if (dictLookup id s.items).isSome then 1 else 0

theorem ok_pair_inj {α β γ : Type} {a a' : α} {b b' : β}
    (h : (Except.ok (a, b) : Except γ (α × β)) = .ok (a', b')) : a = a' ∧ b = b' := by
  injection h with h'
  exact ⟨congrArg Prod.fst h', congrArg Prod.snd h'⟩

theorem findFirstItem_sound {catalog : List (String × Item)} {q : String} {it : Item} :
    ∀ {ids : List String}, findFirstItem catalog ids q = some it →
    ∃ k, k ∈ ids ∧ dictLookup k catalog = some it := by
  intro ids
  induction ids with
  | nil => intro h; simp [findFirstItem] at h
  | cons i rest ih =>
    intro h
    rw [findFirstItem] at h
    rcases hlk : dictLookup i catalog with _ | item
    · simp only [hlk] at h
      obtain ⟨k, hk1, hk2⟩ := ih h
      exact ⟨k, List.mem_cons_of_mem _ hk1, hk2⟩
    · simp only [hlk] at h
      by_cases hm : itemMatches q item = true
      · rw [if_pos hm] at h
        injection h with h'
        exact ⟨i, List.mem_cons_self _ _, h' ▸ hlk⟩
      · rw [if_neg hm] at h
        obtain ⟨k, hk1, hk2⟩ := ih h
        exact ⟨k, List.mem_cons_of_mem _ hk1, hk2⟩

theorem getItemInLocation_sound {s : GameState} {target : String} {it : Item}
    (h : getItemInLocation s target = some it) :
    ∃ loc, dictLookup (coordsToStr s.current_coords) s.locations = some loc
      ∧ ∃ k, k ∈ loc.items ∧ dictLookup k s.items = some it := by
  rw [getItemInLocation] at h
  rcases hlk : dictLookup (coordsToStr s.current_coords) s.locations with _ | loc
  · rw [hlk] at h; exact absurd h (by simp)
  · rw [hlk] at h
    obtain ⟨k, hk1, hk2⟩ := findFirstItem_sound h
    exact ⟨loc, rfl, k, hk1, hk2⟩

theorem getItemInInventory_sound {s : GameState} {target : String} {it : Item}
    (h : getItemInInventory s target = some it) :
    ∃ k, k ∈ s.player_inventory ∧ dictLookup k s.items = some it :=
  findFirstItem_sound h

theorem itemId_eq_key {s : GameState} {k : String} {it : Item} (hI : EngineInv s)
    (h : dictLookup k s.items = some it) : it.id = k :=
  (hI.itemShape (k, it) (dictLookup_mem h)).1

theorem mkItemId_fresh {items : List (String × Item)}
    (hshape : ∀ e ∈ items, e.2.id = e.1
      ∧ ∃ p n, e.1 = mkItemId (coordsToStr p) n ∧ n < items.length)
    (q : Int × Int) : mkItemId (coordsToStr q) items.length ∉ dkeys items := by
  intro hmem
  obtain ⟨e, he, hk⟩ := List.mem_map.mp hmem
  obtain ⟨-, p, n, hid, hlt⟩ := hshape e he
  have h2 := mkItemId_inj (coordsToStr_no_underscore p) (coordsToStr_no_underscore q)
    (hid.symm.trans hk)
  omega

theorem mkNpcId_fresh {npcs : List (String × Npc)}
    (hshape : ∀ e ∈ npcs, e.2.id = e.1
      ∧ ∃ p n, e.1 = mkNpcId (coordsToStr p) n ∧ n < npcs.length)
    (q : Int × Int) : mkNpcId (coordsToStr q) npcs.length ∉ dkeys npcs := by
  intro hmem
  obtain ⟨e, he, hk⟩ := List.mem_map.mp hmem
  obtain ⟨-, p, n, hid, hlt⟩ := hshape e he
  have h2 := mkNpcId_inj (coordsToStr_no_underscore p) (coordsToStr_no_underscore q)
    (hid.symm.trans hk)
  omega

theorem locItemsCount_cons (k : String) (v : Location) (l : List (String × Location))
    (id : String) :
    locItemsCount ((k, v) :: l) id = v.items.count id + locItemsCount l id := by
  simp [locItemsCount]

theorem locItemsCount_le {l : List (String × Location)} {k : String} {loc : Location}
    (h : dictLookup k l = some loc) (id : String) :
    loc.items.count id ≤ locItemsCount l id := by
  have hm := dictLookup_mem h
  have hmem : loc.items.count id ∈ l.map (fun e => e.2.items.count id) :=
    List.mem_map.mpr ⟨(k, loc), hm, rfl⟩
  exact List.single_le_sum (fun x _ => Nat.zero_le x) _ hmem

theorem locItemsCount_dupdate {l : List (String × Location)} {k : String} {loc : Location}
    (hnd : (dkeys l).Nodup) (h : dictLookup k l = some loc) (f : Location → Location)
    (id : String) :
    locItemsCount (dupdate k f l) id + loc.items.count id
      = locItemsCount l id + (f loc).items.count id := by
  induction l with
  | nil => simp [dictLookup] at h
  | cons e t ih =>
    obtain ⟨e1, e2⟩ := e
    have hnd1 : e1 ∉ dkeys t := by
      simp only [dkeys, List.map_cons, List.nodup_cons] at hnd
      simpa [dkeys] using hnd.1
    have hnd2 : (dkeys t).Nodup := by
      simp only [dkeys, List.map_cons, List.nodup_cons] at hnd
      simpa [dkeys] using hnd.2
    by_cases he : e1 = k
    · have hloc : e2 = loc := by
        rw [dictLookup, if_pos he] at h
        injection h
      have hkt : k ∉ dkeys t := he ▸ hnd1
      have ht : List.map (fun e => if e.1 = k then (e.1, f e.2) else e) t = t :=
        dupdate_of_not_mem hkt f
      simp only [dupdate, List.map_cons, if_pos he, ht]
      rw [locItemsCount_cons, locItemsCount_cons, hloc]
      omega
    · have h2 : dictLookup k t = some loc := by
        rw [dictLookup, if_neg he] at h
        exact h
      have hrec := ih hnd2 h2
      simp only [dupdate] at hrec
      simp only [dupdate, List.map_cons, if_neg he]
      rw [locItemsCount_cons, locItemsCount_cons]
      omega

theorem generateLocationData_spec (s : GameState) (coords : Int × Int) (setting : String)
    (g : Oracle) (hk : Bool)
    (hshape : ∀ e ∈ s.items, e.2.id = e.1
      ∧ ∃ p n, e.1 = mkItemId (coordsToStr p) n ∧ n < s.items.length)
    (hshapeN : ∀ e ∈ s.npcs, e.2.id = e.1
      ∧ ∃ p n, e.1 = mkNpcId (coordsToStr p) n ∧ n < s.npcs.length) :
    ((generateLocationData s coords setting g hk).1.locations = s.locations
      ∧ (generateLocationData s coords setting g hk).1.player_inventory
          = s.player_inventory
      ∧ (generateLocationData s coords setting g hk).1.current_coords = s.current_coords)
    ∧ (((generateLocationData s coords setting g hk).1.items = s.items
          ∧ (generateLocationData s coords setting g hk).2.1.items = [])
        ∨ ∃ it, (generateLocationData s coords setting g hk).1.items
              = (it.id, it) :: s.items
            ∧ it.id = mkItemId (coordsToStr coords) s.items.length
            ∧ it.id ∉ dkeys s.items
            ∧ (generateLocationData s coords setting g hk).2.1.items = [it.id])
    ∧ (((generateLocationData s coords setting g hk).1.npcs = s.npcs
          ∧ (generateLocationData s coords setting g hk).2.1.npcs = [])
        ∨ ∃ np, (generateLocationData s coords setting g hk).1.npcs
              = (np.id, np) :: s.npcs
            ∧ np.id = mkNpcId (coordsToStr coords) s.npcs.length
            ∧ np.id ∉ dkeys s.npcs
            ∧ (generateLocationData s coords setting g hk).2.1.npcs = [np.id]) := by
  have hifresh := mkItemId_fresh hshape coords
  have hnfresh := mkNpcId_fresh hshapeN coords
  rcases hitem : aiGenerateItemDetails hk g.itemGen with _ | data
  · rcases hroll : g.npcRoll with _ | _
    · refine ⟨⟨?_, ?_, ?_⟩, Or.inl ⟨?_, ?_⟩, Or.inl ⟨?_, ?_⟩⟩ <;>
        simp [generateLocationData, hitem, hroll]
    · rcases hnpc : aiGenerateNpcDetails hk g.npcGen with _ | ndata
      · refine ⟨⟨?_, ?_, ?_⟩, Or.inl ⟨?_, ?_⟩, Or.inl ⟨?_, ?_⟩⟩ <;>
          simp [generateLocationData, hitem, hroll, hnpc]
      · refine ⟨⟨?_, ?_, ?_⟩, Or.inl ⟨?_, ?_⟩,
          Or.inr ⟨{ ndata with id := mkNpcId (coordsToStr coords) s.npcs.length },
            ?_, rfl, hnfresh, ?_⟩⟩ <;>
          simp [generateLocationData, hitem, hroll, hnpc, dinsert_filter_of_fresh hnfresh]
  · rcases hroll : g.npcRoll with _ | _
    · refine ⟨⟨?_, ?_, ?_⟩,
        Or.inr ⟨{ data with id := mkItemId (coordsToStr coords) s.items.length },
          ?_, rfl, hifresh, ?_⟩, Or.inl ⟨?_, ?_⟩⟩ <;>
        simp [generateLocationData, hitem, hroll, dinsert_filter_of_fresh hifresh]
    · rcases hnpc : aiGenerateNpcDetails hk g.npcGen with _ | ndata
      · refine ⟨⟨?_, ?_, ?_⟩,
          Or.inr ⟨{ data with id := mkItemId (coordsToStr coords) s.items.length },
            ?_, rfl, hifresh, ?_⟩, Or.inl ⟨?_, ?_⟩⟩ <;>
          simp [generateLocationData, hitem, hroll, hnpc, dinsert_filter_of_fresh hifresh]
      · refine ⟨⟨?_, ?_, ?_⟩,
          Or.inr ⟨{ data with id := mkItemId (coordsToStr coords) s.items.length },
            ?_, rfl, hifresh, ?_⟩,
          Or.inr ⟨{ ndata with id := mkNpcId (coordsToStr coords) s.npcs.length },
            ?_, rfl, hnfresh, ?_⟩⟩ <;>
          simp [generateLocationData, hitem, hroll, hnpc,
            dinsert_filter_of_fresh hifresh, dinsert_filter_of_fresh hnfresh]

theorem not_mem_dkeys_of_lookup_none {α : Type} {k : String} {l : List (String × α)}
    (h : dictLookup k l = none) : k ∉ dkeys l := by
  rw [← dictLookup_isSome_iff_mem_dkeys, h]
  simp

theorem EngineInv_create (s : GameState) (coords : Int × Int) (setting : String)
    (g : Oracle) (hk : Bool)
    (hlocKeys : (dkeys s.locations).Nodup)
    (hitemShape : ∀ e ∈ s.items, e.2.id = e.1
      ∧ ∃ p n, e.1 = mkItemId (coordsToStr p) n ∧ n < s.items.length)
    (hnpcShape : ∀ e ∈ s.npcs, e.2.id = e.1
      ∧ ∃ p n, e.1 = mkNpcId (coordsToStr p) n ∧ n < s.npcs.length)
    (hown : ∀ id, ownCount s id = if (dictLookup id s.items).isSome then 1 else 0)
    (hfresh : dictLookup (coordsToStr coords) s.locations = none) :
    EngineInv { (generateLocationData s coords setting g hk).1 with
      locations := dinsert (coordsToStr coords)
          (generateLocationData s coords setting g hk).2.1
          (generateLocationData s coords setting g hk).1.locations
      current_coords := coords } := by
  obtain ⟨⟨hloc, hinv, -⟩, hitems, hnpcs⟩ :=
    generateLocationData_spec s coords setting g hk hitemShape hnpcShape
  have hfreshmem : coordsToStr coords ∉ dkeys s.locations :=
    not_mem_dkeys_of_lookup_none hfresh
  constructor
  · show (dictLookup (coordsToStr coords) (dinsert (coordsToStr coords) _ _)).isSome
    rw [dictLookup_dinsert_self]
    rfl
  · show (dkeys (dinsert (coordsToStr coords) _
      (generateLocationData s coords setting g hk).1.locations)).Nodup
    exact dkeys_dinsert_nodup _ _ _ (hloc ▸ hlocKeys)
  · show ∀ e ∈ (generateLocationData s coords setting g hk).1.items, _
    rcases hitems with ⟨hsame, -⟩ | ⟨it, hcons, hid, -, -⟩
    · rw [hsame]
      exact hitemShape
    · rw [hcons]
      intro e he
      rcases List.mem_cons.mp he with he1 | he2
      · subst he1
        refine ⟨rfl, coords, s.items.length, hid, ?_⟩
        simp only [List.length_cons]
        omega
      · obtain ⟨h1, p, n, h2, h3⟩ := hitemShape e he2
        refine ⟨h1, p, n, h2, ?_⟩
        simp only [List.length_cons]
        omega
  · show ∀ e ∈ (generateLocationData s coords setting g hk).1.npcs, _
    rcases hnpcs with ⟨hsame, -⟩ | ⟨np, hcons, hid, -, -⟩
    · rw [hsame]
      exact hnpcShape
    · rw [hcons]
      intro e he
      rcases List.mem_cons.mp he with he1 | he2
      · subst he1
        refine ⟨rfl, coords, s.npcs.length, hid, ?_⟩
        simp only [List.length_cons]
        omega
      · obtain ⟨h1, p, n, h2, h3⟩ := hnpcShape e he2
        refine ⟨h1, p, n, h2, ?_⟩
        simp only [List.length_cons]
        omega
  · intro x
    show locItemsCount (dinsert (coordsToStr coords)
        (generateLocationData s coords setting g hk).2.1
        (generateLocationData s coords setting g hk).1.locations) x
      + (generateLocationData s coords setting g hk).1.player_inventory.count x
      = _
    rw [hloc, hinv, dinsert_filter_of_fresh hfreshmem, locItemsCount_cons]
    rcases hitems with ⟨hsame, hempty⟩ | ⟨it, hcons, -, hnotin, hsingle⟩
    · rw [hsame, hempty]
      have hownx := hown x
      simp only [ownCount] at hownx
      simpa using hownx
    · rw [hcons, hsingle]
      by_cases hid : x = it.id
      · have hlk0 : dictLookup x s.items = none := by
          rcases hx : dictLookup x s.items with _ | v
          · rfl
          · exfalso
            apply hnotin
            rw [← hid]
            exact List.mem_map_of_mem Prod.fst (dictLookup_mem hx)
        have hownx := hown x
        rw [hlk0] at hownx
        simp only [ownCount, Option.isSome_none, Bool.false_eq_true, if_false] at hownx
        have hl0 : locItemsCount s.locations x = 0 := by omega
        have hi0 : s.player_inventory.count x = 0 := by omega
        rw [hl0, hi0]
        have hlk1 : dictLookup x ((it.id, it) :: s.items) = some it := by
          rw [dictLookup, if_pos hid.symm]
        rw [hlk1]
        have hc1 : List.count x [it.id] = 1 := by
          rw [hid]
          simp
        rw [hc1]
        rfl
      · have hcnt : List.count x [it.id] = 0 := by
          simp only [List.count_singleton]
          rw [if_neg]
          simp only [beq_iff_eq]
          exact fun hc => hid hc.symm
        rw [hcnt]
        have hlk2 : dictLookup x ((it.id, it) :: s.items) = dictLookup x s.items := by
          rw [dictLookup, if_neg (fun hc => hid hc.symm)]
        rw [hlk2]
        have hownx := hown x
        simp only [ownCount] at hownx
        omega

theorem EngineInv_transport {s s' : GameState} (hI : EngineInv s)
    (h1 : s'.locations = s.locations) (h2 : s'.items = s.items) (h3 : s'.npcs = s.npcs)
    (h4 : s'.player_inventory = s.player_inventory)
    (h5 : s'.current_coords = s.current_coords) : EngineInv s' := by
  constructor
  · rw [h1, h5]; exact hI.cur
  · rw [h1]; exact hI.locKeys
  · rw [h2]; exact hI.itemShape
  · rw [h3]; exact hI.npcShape
  · intro x
    show locItemsCount s'.locations x + s'.player_inventory.count x = _
    rw [h1, h2, h4]
    exact hI.own x

theorem handleNpcInteraction_fields (s : GameState) (npc : Npc) (input : String)
    (g : Oracle) (hk : Bool) :
    (handleNpcInteraction s npc input g hk).1.locations = s.locations
    ∧ (handleNpcInteraction s npc input g hk).1.items = s.items
    ∧ (handleNpcInteraction s npc input g hk).1.npcs = s.npcs
    ∧ (handleNpcInteraction s npc input g hk).1.player_inventory = s.player_inventory
    ∧ (handleNpcInteraction s npc input g hk).1.current_coords = s.current_coords := by
  rw [handleNpcInteraction]
  split <;> exact ⟨rfl, rfl, rfl, rfl, rfl⟩

theorem talkCmd_state (s : GameState) (p1 : String) (rest : List String) (g : Oracle)
    (hk : Bool) :
    (talkCmd s p1 rest g hk).1 = s
    ∨ ∃ npc input, (talkCmd s p1 rest g hk).1 = (handleNpcInteraction s npc input g hk).1 := by
  rw [talkCmd]
  rcases getNpcInLocation s (pyLower p1) with _ | npc
  · simp only
    split
    · split
      · exact Or.inr ⟨_, _, rfl⟩
      · exact Or.inl rfl
    · split
      · exact Or.inl rfl
      · exact Or.inl rfl
  · exact Or.inr ⟨_, _, rfl⟩

theorem talkCmd_fields (s : GameState) (p1 : String) (rest : List String) (g : Oracle)
    (hk : Bool) :
    (talkCmd s p1 rest g hk).1.locations = s.locations
    ∧ (talkCmd s p1 rest g hk).1.items = s.items
    ∧ (talkCmd s p1 rest g hk).1.npcs = s.npcs
    ∧ (talkCmd s p1 rest g hk).1.player_inventory = s.player_inventory
    ∧ (talkCmd s p1 rest g hk).1.current_coords = s.current_coords := by
  rcases talkCmd_state s p1 rest g hk with h | ⟨npc, input, h⟩
  · rw [h]
    exact ⟨rfl, rfl, rfl, rfl, rfl⟩
  · rw [h]
    exact handleNpcInteraction_fields s npc input g hk

theorem examineCmd_ok_state {s s' : GameState} {target : String} {g : Oracle} {hk : Bool}
    {out : GOut} (h : examineCmd s target g hk = .ok (s', out)) : s' = s := by
  rw [examineCmd] at h
  rcases h1 : getItemInInventory s target with _ | item
  · rw [h1] at h
    simp only at h
    rcases h2 : getItemInLocation s target with _ | item2
    · rw [h2] at h
      simp only at h
      exact (ok_pair_inj h).1.symm
    · rw [h2] at h
      simp only at h
      exact absurd h (by simp)
  · rw [h1] at h
    simp only at h
    exact (ok_pair_inj h).1.symm

theorem takeCmd_spec {s s' : GameState} {target : String} {out : GOut}
    (hI : EngineInv s) (h : takeCmd s target = .ok (s', out)) :
    EngineInv s' ∧ s'.items = s.items ∧ s'.npcs = s.npcs
    ∧ ∀ it, getItemInLocation s target = some it → it.can_be_taken = true →
        it.id ∈ s'.player_inventory
        ∧ ∀ loc', dictLookup (coordsToStr s'.current_coords) s'.locations = some loc' →
            it.id ∉ loc'.items := by
  rw [takeCmd] at h
  rcases hfind : getItemInLocation s target with _ | it0
  · simp only [hfind] at h
    obtain ⟨hs, -⟩ := ok_pair_inj h
    subst hs
    refine ⟨hI, rfl, rfl, ?_⟩
    intro it hit
    exact absurd hit (by simp)
  · simp only [hfind] at h
    rcases hct : it0.can_be_taken with _ | _
    · rw [hct] at h
      simp only [Bool.not_false, if_true] at h
      obtain ⟨hs, -⟩ := ok_pair_inj h
      subst hs
      refine ⟨hI, rfl, rfl, ?_⟩
      intro it hit hct2
      injection hit with hit'
      subst hit'
      rw [hct] at hct2
      exact absurd hct2 (by simp)
    · rw [hct] at h
      simp only [Bool.not_true, Bool.false_eq_true, if_false] at h
      obtain ⟨loc, hlkloc, k, hkin, hlkitem⟩ := getItemInLocation_sound hfind
      have hidk : it0.id = k := itemId_eq_key hI hlkitem
      simp only [hlkloc] at h
      have hin : it0.id ∈ loc.items := by rw [hidk]; exact hkin
      rw [if_pos hin] at h
      obtain ⟨hs, -⟩ := ok_pair_inj h
      subst hs
      have hlk_items : dictLookup it0.id s.items = some it0 := by rw [hidk]; exact hlkitem
      have hown1 : ownCount s it0.id = 1 := by
        have := hI.own it0.id
        rw [hlk_items] at this
        simpa using this
      have hcnt_pos : 0 < loc.items.count it0.id := List.count_pos_iff.mpr hin
      have hle := locItemsCount_le hlkloc it0.id
      have hfacts : s.player_inventory.count it0.id = 0
          ∧ locItemsCount s.locations it0.id = 1 ∧ loc.items.count it0.id = 1 := by
        have := hown1
        simp only [ownCount] at this
        omega
      have hcur' : (dictLookup (coordsToStr s.current_coords)
          (dupdate (coordsToStr s.current_coords)
            (fun l => { l with items := l.items.erase it0.id }) s.locations)).isSome := by
        rw [dictLookup_dupdate_self _ hlkloc]
        rfl
      have hkeys' : (dkeys (dupdate (coordsToStr s.current_coords)
          (fun l => { l with items := l.items.erase it0.id }) s.locations)).Nodup := by
        rw [dkeys_dupdate]
        exact hI.locKeys
      have hown' : ∀ x, locItemsCount (dupdate (coordsToStr s.current_coords)
          (fun l => { l with items := l.items.erase it0.id }) s.locations) x
          + (s.player_inventory ++ [it0.id]).count x
          = if (dictLookup x s.items).isSome then 1 else 0 := by
        intro x
        have hdup := locItemsCount_dupdate hI.locKeys hlkloc
          (fun l => { l with items := l.items.erase it0.id }) x
        simp only at hdup
        rw [List.count_append]
        by_cases hx : x = it0.id
        · subst hx
          rw [List.count_erase_self] at hdup
          rw [hlk_items]
          simp only [Option.isSome_some, if_true, List.count_singleton_self]
          omega
        · rw [List.count_erase_of_ne hx] at hdup
          have hsing : List.count x [it0.id] = 0 := by
            simp only [List.count_singleton]
            rw [if_neg]
            simp only [beq_iff_eq]
            exact fun hc => hx hc.symm
          rw [hsing]
          have hown := hI.own x
          simp only [ownCount] at hown
          omega
      refine ⟨⟨hcur', hkeys', hI.itemShape, hI.npcShape, hown'⟩, rfl, rfl, ?_⟩
      intro it hit hct2
      injection hit with hit'
      subst hit'
      constructor
      · show it0.id ∈ s.player_inventory ++ [it0.id]
        simp
      · intro loc' hlk'
        show it0.id ∉ loc'.items
        have hlk'' : dictLookup (coordsToStr s.current_coords)
            (dupdate (coordsToStr s.current_coords)
              (fun l => { l with items := l.items.erase it0.id }) s.locations)
          = some loc' := hlk'
        rw [dictLookup_dupdate_self _ hlkloc] at hlk''
        injection hlk'' with hl'
        subst hl'
        show it0.id ∉ loc.items.erase it0.id
        intro hmem
        have hpos := List.count_pos_iff.mpr hmem
        rw [List.count_erase_self] at hpos
        omega

theorem dropCmd_spec {s s' : GameState} {target : String} {out : GOut}
    (hI : EngineInv s) (h : dropCmd s target = .ok (s', out)) :
    EngineInv s' ∧ s'.items = s.items ∧ s'.npcs = s.npcs
    ∧ ∀ it, getItemInInventory s target = some it →
        it.id ∉ s'.player_inventory
        ∧ ∀ loc', dictLookup (coordsToStr s'.current_coords) s'.locations = some loc' →
            it.id ∈ loc'.items := by
  rw [dropCmd] at h
  rcases hfind : getItemInInventory s target with _ | it0
  · simp only [hfind] at h
    obtain ⟨hs, -⟩ := ok_pair_inj h
    subst hs
    refine ⟨hI, rfl, rfl, ?_⟩
    intro it hit
    exact absurd hit (by simp)
  · simp only [hfind] at h
    obtain ⟨k, hkin, hlkitem⟩ := getItemInInventory_sound hfind
    have hidk : it0.id = k := itemId_eq_key hI hlkitem
    obtain ⟨loc, hlkloc⟩ := Option.isSome_iff_exists.mp hI.cur
    simp only [hlkloc] at h
    have hin : it0.id ∈ s.player_inventory := by rw [hidk]; exact hkin
    rw [if_pos hin] at h
    obtain ⟨hs, -⟩ := ok_pair_inj h
    subst hs
    have hlk_items : dictLookup it0.id s.items = some it0 := by rw [hidk]; exact hlkitem
    have hown1 : ownCount s it0.id = 1 := by
      have := hI.own it0.id
      rw [hlk_items] at this
      simpa using this
    have hinvpos : 0 < s.player_inventory.count it0.id := List.count_pos_iff.mpr hin
    have hle := locItemsCount_le hlkloc it0.id
    have hfacts : s.player_inventory.count it0.id = 1
        ∧ locItemsCount s.locations it0.id = 0 ∧ loc.items.count it0.id = 0 := by
      have := hown1
      simp only [ownCount] at this
      omega
    have hcur' : (dictLookup (coordsToStr s.current_coords)
        (dupdate (coordsToStr s.current_coords)
          (fun l => { l with items := l.items ++ [it0.id] }) s.locations)).isSome := by
      rw [dictLookup_dupdate_self _ hlkloc]
      rfl
    have hkeys' : (dkeys (dupdate (coordsToStr s.current_coords)
        (fun l => { l with items := l.items ++ [it0.id] }) s.locations)).Nodup := by
      rw [dkeys_dupdate]
      exact hI.locKeys
    have hown' : ∀ x, locItemsCount (dupdate (coordsToStr s.current_coords)
        (fun l => { l with items := l.items ++ [it0.id] }) s.locations) x
        + (s.player_inventory.erase it0.id).count x
        = if (dictLookup x s.items).isSome then 1 else 0 := by
      intro x
      have hdup := locItemsCount_dupdate hI.locKeys hlkloc
        (fun l => { l with items := l.items ++ [it0.id] }) x
      simp only at hdup
      rw [List.count_append] at hdup
      by_cases hx : x = it0.id
      · subst hx
        rw [List.count_erase_self]
        rw [hlk_items]
        simp only [Option.isSome_some, if_true, List.count_singleton_self] at hdup ⊢
        omega
      · rw [List.count_erase_of_ne hx]
        have hsing : List.count x [it0.id] = 0 := by
          simp only [List.count_singleton]
          rw [if_neg]
          simp only [beq_iff_eq]
          exact fun hc => hx hc.symm
        rw [hsing] at hdup
        have hown := hI.own x
        simp only [ownCount] at hown
        omega
    refine ⟨⟨hcur', hkeys', hI.itemShape, hI.npcShape, hown'⟩, rfl, rfl, ?_⟩
    intro it hit
    injection hit with hit'
    subst hit'
    constructor
    · show it0.id ∉ s.player_inventory.erase it0.id
      intro hmem
      have hpos := List.count_pos_iff.mpr hmem
      rw [List.count_erase_self] at hpos
      omega
    · intro loc' hlk'
      show it0.id ∈ loc'.items
      have hlk'' : dictLookup (coordsToStr s.current_coords)
          (dupdate (coordsToStr s.current_coords)
            (fun l => { l with items := l.items ++ [it0.id] }) s.locations)
        = some loc' := hlk'
      rw [dictLookup_dupdate_self _ hlkloc] at hlk''
      injection hlk'' with hl'
      subst hl'
      show it0.id ∈ loc.items ++ [it0.id]
      simp

theorem match_view_state {X : Option LocView} {S s' : GameState} {out : GOut}
    (h : (match X with
          | some v => Except.ok (S, GOut.view v)
          | none => Except.ok (S, GOut.pyNone) : Except PyErr (GameState × GOut))
        = .ok (s', out)) : S = s' := by
  rcases X with _ | v
  · exact (ok_pair_inj h).1
  · exact (ok_pair_inj h).1

theorem goCmd_spec {s s' : GameState} {parts : List String} {g : Oracle} {hk : Bool}
    {out : GOut} (hI : EngineInv s) (h : goCmd s parts g hk = .ok (s', out)) :
    EngineInv s'
    ∧ (s'.items = s.items ∨ ∃ it p, s'.items = (it.id, it) :: s.items
        ∧ it.id = mkItemId (coordsToStr p) s.items.length ∧ it.id ∉ dkeys s.items)
    ∧ (s'.npcs = s.npcs ∨ ∃ np p, s'.npcs = (np.id, np) :: s.npcs
        ∧ np.id = mkNpcId (coordsToStr p) s.npcs.length ∧ np.id ∉ dkeys s.npcs) := by
  rw [goCmd] at h
  rcases hdir : goDirection parts with _ | d
  · simp only [hdir] at h
    obtain ⟨hs, -⟩ := ok_pair_inj h
    subst hs
    exact ⟨hI, Or.inl rfl, Or.inl rfl⟩
  · simp only [hdir] at h
    rcases hdm : directionMap d with _ | delta
    · simp only [hdm] at h
      obtain ⟨hs, -⟩ := ok_pair_inj h
      subst hs
      exact ⟨hI, Or.inl rfl, Or.inl rfl⟩
    · simp only [hdm] at h
      rw [getOrCreateLocation] at h
      rcases hlk : dictLookup
          (coordsToStr (s.current_coords.1 + delta.1, s.current_coords.2 + delta.2))
          s.locations with _ | loc
      · simp only [hlk] at h
        have hs := match_view_state h
        subst hs
        refine ⟨?_, ?_, ?_⟩
        · have hcre := EngineInv_create s
            (s.current_coords.1 + delta.1, s.current_coords.2 + delta.2)
            (pickSetting g) g hk hI.locKeys hI.itemShape hI.npcShape hI.own hlk
          exact hcre
        · obtain ⟨-, hitems, -⟩ := generateLocationData_spec s
            (s.current_coords.1 + delta.1, s.current_coords.2 + delta.2)
            (pickSetting g) g hk hI.itemShape hI.npcShape
          rcases hitems with ⟨hsame, -⟩ | ⟨it, hcons, hid, hnotin, -⟩
          · exact Or.inl hsame
          · exact Or.inr ⟨it, (s.current_coords.1 + delta.1, s.current_coords.2 + delta.2),
              hcons, hid, hnotin⟩
        · obtain ⟨-, -, hnpcs⟩ := generateLocationData_spec s
            (s.current_coords.1 + delta.1, s.current_coords.2 + delta.2)
            (pickSetting g) g hk hI.itemShape hI.npcShape
          rcases hnpcs with ⟨hsame, -⟩ | ⟨np, hcons, hid, hnotin, -⟩
          · exact Or.inl hsame
          · exact Or.inr ⟨np, (s.current_coords.1 + delta.1, s.current_coords.2 + delta.2),
              hcons, hid, hnotin⟩
      · simp only [hlk] at h
        have hs := match_view_state h
        subst hs
        refine ⟨⟨?_, hI.locKeys, hI.itemShape, hI.npcShape, hI.own⟩, Or.inl rfl, Or.inl rfl⟩
        show (dictLookup (coordsToStr
            (s.current_coords.1 + delta.1, s.current_coords.2 + delta.2)) s.locations).isSome
        rw [hlk]
        rfl

theorem processCommand_spec {s s' : GameState} {cmd : String} {g : Oracle} {hk : Bool}
    {out : GOut} (hI : EngineInv s)
    (h : processCommand s cmd g hk = .ok (s', out)) :
    EngineInv s'
    ∧ (s'.items = s.items ∨ ∃ it p, s'.items = (it.id, it) :: s.items
        ∧ it.id = mkItemId (coordsToStr p) s.items.length ∧ it.id ∉ dkeys s.items)
    ∧ (s'.npcs = s.npcs ∨ ∃ np p, s'.npcs = (np.id, np) :: s.npcs
        ∧ np.id = mkNpcId (coordsToStr p) s.npcs.length ∧ np.id ∉ dkeys s.npcs) := by
  rw [processCommand] at h
  rcases hps : pySplit (pyLower cmd) with _ | ⟨p0, rest⟩
  · simp only [hps] at h
    exact absurd h (by simp)
  · simp only [hps] at h
    by_cases hl : guardLook p0 = true
    · rw [if_pos hl] at h
      by_cases hre : rest.isEmpty = true
      · rw [if_pos hre] at h
        obtain ⟨hs, -⟩ := ok_pair_inj h
        subst hs
        exact ⟨hI, Or.inl rfl, Or.inl rfl⟩
      · rw [if_neg hre] at h
        obtain ⟨hs, -⟩ := ok_pair_inj h
        subst hs
        exact ⟨hI, Or.inl rfl, Or.inl rfl⟩
    · rw [if_neg hl] at h
      by_cases hex : guardExamine p0 = true
      · rw [if_pos hex] at h
        by_cases hre : rest.isEmpty = true
        · rw [if_pos hre] at h
          obtain ⟨hs, -⟩ := ok_pair_inj h
          subst hs
          exact ⟨hI, Or.inl rfl, Or.inl rfl⟩
        · rw [if_neg hre] at h
          have hse := examineCmd_ok_state h
          subst hse
          exact ⟨hI, Or.inl rfl, Or.inl rfl⟩
      · rw [if_neg hex] at h
        by_cases hgo : isGoVerb p0 = true
        · rw [if_pos hgo] at h
          exact goCmd_spec hI h
        · rw [if_neg hgo] at h
          by_cases htk : guardTake p0 rest = true
          · rw [if_pos htk] at h
            obtain ⟨hinv, hit, hnp, -⟩ := takeCmd_spec hI h
            exact ⟨hinv, Or.inl hit, Or.inl hnp⟩
          · rw [if_neg htk] at h
            by_cases hdr : guardDrop p0 rest = true
            · rw [if_pos hdr] at h
              obtain ⟨hinv, hit, hnp, -⟩ := dropCmd_spec hI h
              exact ⟨hinv, Or.inl hit, Or.inl hnp⟩
            · rw [if_neg hdr] at h
              by_cases hiv : guardInventory p0 = true
              · rw [if_pos hiv] at h
                obtain ⟨hs, -⟩ := ok_pair_inj h
                subst hs
                exact ⟨hI, Or.inl rfl, Or.inl rfl⟩
              · rw [if_neg hiv] at h
                by_cases hta : guardTalk p0 rest = true
                · rw [if_pos hta] at h
                  rcases rest with _ | ⟨p1, rest2⟩
                  · obtain ⟨hs, -⟩ := ok_pair_inj h
                    subst hs
                    exact ⟨hI, Or.inl rfl, Or.inl rfl⟩
                  · injection h with h'
                    have hs : (talkCmd s p1 rest2 g hk).1 = s' := congrArg Prod.fst h'
                    obtain ⟨hl2, hi2, hn2, hp2, hc2⟩ := talkCmd_fields s p1 rest2 g hk
                    subst hs
                    exact ⟨EngineInv_transport hI hl2 hi2 hn2 hp2 hc2,
                      Or.inl hi2, Or.inl hn2⟩
                · rw [if_neg hta] at h
                  by_cases hth : guardThemes p0 = true
                  · rw [if_pos hth] at h
                    obtain ⟨hs, -⟩ := ok_pair_inj h
                    subst hs
                    exact ⟨hI, Or.inl rfl, Or.inl rfl⟩
                  · rw [if_neg hth] at h
                    by_cases hthm : guardTheme p0 rest = true
                    · rw [if_pos hthm] at h
                      obtain ⟨hs, -⟩ := ok_pair_inj h
                      subst hs
                      exact ⟨hI, Or.inl rfl, Or.inl rfl⟩
                    · rw [if_neg hthm] at h
                      by_cases hlr : guardLearn p0 rest = true
                      · rw [if_pos hlr] at h
                        obtain ⟨hs, -⟩ := ok_pair_inj h
                        subst hs
                        exact ⟨hI, Or.inl rfl, Or.inl rfl⟩
                      · rw [if_neg hlr] at h
                        by_cases hhp : guardHelp p0 = true
                        · rw [if_pos hhp] at h
                          obtain ⟨hs, -⟩ := ok_pair_inj h
                          subst hs
                          exact ⟨hI, Or.inl rfl, Or.inl rfl⟩
                        · rw [if_neg hhp] at h
                          by_cases hq : guardQuit p0 = true
                          · rw [if_pos hq] at h
                            obtain ⟨hs, -⟩ := ok_pair_inj h
                            subst hs
                            exact ⟨hI, Or.inl rfl, Or.inl rfl⟩
                          · rw [if_neg hq] at h
                            obtain ⟨hs, -⟩ := ok_pair_inj h
                            subst hs
                            exact ⟨hI, Or.inl rfl, Or.inl rfl⟩

theorem EngineInv_initialState (v : List VocabWord) (t : List Theme) (jl : String)
    (g : Oracle) (hk : Bool) : EngineInv (initialState v t jl g hk) := by
  exact EngineInv_create
    { locations := [], items := [], npcs := [],
      vocabulary := v.foldl (fun d w => dinsert w.id w d) [],
      vocabulary_themes := t.foldl (fun d th => dinsert th.id th d) [],
      player_inventory := [], player_jlpt_level := jl,
      conversation_history := [], current_coords := (0, 0) }
    (0, 0) "Quiet Shopping Street" g hk List.nodup_nil (by intro e he; simp at he)
    (by intro e he; simp at he)
    (by intro x; simp [ownCount, locItemsCount, dictLookup]) rfl

theorem reachable_inv {hk : Bool} {s : GameState} (h : Reachable hk s) : EngineInv s := by
  induction h with
  | init v t jl g => exact EngineInv_initialState v t jl g hk
  | step _ hok ih => exact (processCommand_spec ih hok).1

/-! ## Claim C8 -/

/-- C8: item ownership is exclusive and preserved.  In every reachable engine
state, each catalogued item id occurs in exactly one container overall (the sum
of its occurrences across all locations and in the player inventory is one);
after a successful `take` of a takable item, its id is in the player inventory
and absent from the current location; after a successful `drop`, its id is out
of the inventory and present in the current location. -/
theorem item_ownership_exclusive {hk : Bool} {s : GameState} (hr : Reachable hk s) :
    (∀ x, (dictLookup x s.items).isSome = true → ownCount s x = 1)
    ∧ (∀ (target : String) (s2 : GameState) (out : GOut),
        takeCmd s target = .ok (s2, out) →
        ∀ it, getItemInLocation s target = some it → it.can_be_taken = true →
          it.id ∈ s2.player_inventory
          ∧ ∀ loc2, dictLookup (coordsToStr s2.current_coords) s2.locations = some loc2 →
              it.id ∉ loc2.items)
    ∧ (∀ (target : String) (s2 : GameState) (out : GOut),
        dropCmd s target = .ok (s2, out) →
        ∀ it, getItemInInventory s target = some it →
          it.id ∉ s2.player_inventory
          ∧ ∀ loc2, dictLookup (coordsToStr s2.current_coords) s2.locations = some loc2 →
              it.id ∈ loc2.items) := by
  have hI := reachable_inv hr
  refine ⟨?_, ?_, ?_⟩
  · intro x hx
    have h := hI.own x
    rw [if_pos hx] at h
    exact h
  · intro target s2 out h
    exact (takeCmd_spec hI h).2.2.2
  · intro target s2 out h
    exact (dropCmd_spec hI h).2.2.2

def wItemLantern : Item :=
  { id := "", name := "ランタン", name_english := "Lantern", name_romaji := "rantan",
    japanese_name := "", description := "A small lantern.", can_be_taken := true,
    vocabulary := [] }

def wOracleGen : Oracle :=
  { settingIdx := 0, locDetails := none, itemGen := some wItemLantern, npcRoll := false,
    npcGen := none, conv := .err "x", lookGen := .fail "x", examGen := none }

/-- The state of a freshly loaded engine whose starting-location generation
produced one takable item (id `item_0,0_0`). -/
def wStateGen : GameState := initialState [] [] "N5" wOracleGen true

/-- The generated item as stored in the catalog. -/
def wItemG : Item := { wItemLantern with id := "item_0,0_0" }

def wTakePair : GameState × GOut :=
  match takeCmd wStateGen "lantern" with
  | .ok p => p
  | .error _ => (wStateGen, .pyNone)

def wAfterTake : GameState := wTakePair.1

def wLocAfterTake : Location :=
  match dictLookup (coordsToStr wAfterTake.current_coords) wAfterTake.locations with
  | some l => l
  | none => wLocTake

def wDropPair : GameState × GOut :=
  match dropCmd wAfterTake "lantern" with
  | .ok p => p
  | .error _ => (wAfterTake, .pyNone)

def wAfterDrop : GameState := wDropPair.1

def wLocAfterDrop : Location :=
  match dictLookup (coordsToStr wAfterDrop.current_coords) wAfterDrop.locations with
  | some l => l
  | none => wLocTake

/-- C8 witness: the theorem applied at a concrete reachable state with one
generated takable item, followed through a concrete take and a concrete drop. -/
theorem item_ownership_exclusive_witness :
    ownCount wStateGen "item_0,0_0" = 1
    ∧ takeCmd wStateGen "lantern" = .ok (wAfterTake, wTakePair.2)
    ∧ "item_0,0_0" ∈ wAfterTake.player_inventory
    ∧ dictLookup (coordsToStr wAfterTake.current_coords) wAfterTake.locations
        = some wLocAfterTake
    ∧ "item_0,0_0" ∉ wLocAfterTake.items
    ∧ dropCmd wAfterTake "lantern" = .ok (wAfterDrop, wDropPair.2)
    ∧ "item_0,0_0" ∉ wAfterDrop.player_inventory
    ∧ dictLookup (coordsToStr wAfterDrop.current_coords) wAfterDrop.locations
        = some wLocAfterDrop
    ∧ "item_0,0_0" ∈ wLocAfterDrop.items := by
  have hr : Reachable true wStateGen := Reachable.init [] [] "N5" wOracleGen
  have hr2 : Reachable true wAfterTake :=
    Reachable.step hr (show processCommand wStateGen "take lantern" wOracleGen true
      = .ok (wAfterTake, wTakePair.2) from rfl)
  have h1 := (item_ownership_exclusive hr).2.1 "lantern" wAfterTake wTakePair.2 rfl
    wItemG (by decide) rfl
  have h2 := (item_ownership_exclusive hr2).2.2 "lantern" wAfterDrop wDropPair.2 rfl
    wItemG (by decide)
  exact ⟨(item_ownership_exclusive hr).1 "item_0,0_0" (by decide), rfl, h1.1, rfl,
    h1.2 wLocAfterTake rfl, rfl, h2.1, rfl, h2.2 wLocAfterDrop rfl⟩

/-! ## Claim C9 -/

/-- The engine state right after `__init__`/`load_game_data`, before the
starting location is generated. -/
def initCore (v : List VocabWord) (t : List Theme) (jl : String) : GameState :=
  { locations := [], items := [], npcs := [],
    vocabulary := v.foldl (fun d w => dinsert w.id w d) [],
    vocabulary_themes := t.foldl (fun d th => dinsert th.id th d) [],
    player_inventory := [], player_jlpt_level := jl,
    conversation_history := [], current_coords := (0, 0) }

theorem reachable_keys_nodup {hk : Bool} {s : GameState} (hr : Reachable hk s) :
    (dkeys s.items).Nodup ∧ (dkeys s.npcs).Nodup := by
  induction hr with
  | init v t jl g =>
    have hieq : (initialState v t jl g hk).items
        = (generateLocationData (initCore v t jl) (0, 0) "Quiet Shopping Street"
            g hk).1.items := rfl
    have hneq : (initialState v t jl g hk).npcs
        = (generateLocationData (initCore v t jl) (0, 0) "Quiet Shopping Street"
            g hk).1.npcs := rfl
    obtain ⟨-, hit, hnp⟩ := generateLocationData_spec (initCore v t jl) (0, 0)
      "Quiet Shopping Street" g hk (by intro e he; simp [initCore] at he)
      (by intro e he; simp [initCore] at he)
    constructor
    · rw [hieq]
      rcases hit with ⟨he, -⟩ | ⟨it, he, -, -, -⟩ <;> rw [he] <;> simp [initCore, dkeys]
    · rw [hneq]
      rcases hnp with ⟨he, -⟩ | ⟨np, he, -, -, -⟩ <;> rw [he] <;> simp [initCore, dkeys]
  | step hr0 hok ih =>
    obtain ⟨-, hit, hnp⟩ := processCommand_spec (reachable_inv hr0) hok
    constructor
    · rcases hit with he | ⟨it, p, he, -, hfresh⟩
      · rw [he]; exact ih.1
      · rw [he]
        exact List.nodup_cons.mpr ⟨hfresh, ih.1⟩
    · rcases hnp with he | ⟨np, p, he, -, hfresh⟩
      · rw [he]; exact ih.2
      · rw [he]
        exact List.nodup_cons.mpr ⟨hfresh, ih.2⟩

/-- C9: generated ids are globally unique.  In every reachable state the item
and NPC catalogs have pairwise-distinct keys; and every successfully processed
command either leaves a catalog unchanged or prepends exactly one entry whose
id embeds the owning coordinate together with the current catalog size as a
counter and is distinct from every existing id — catalogs only ever grow
(entries are never deleted), so the counter is monotone. -/
theorem generated_ids_unique {hk : Bool} {s : GameState} (hr : Reachable hk s) :
    (dkeys s.items).Nodup ∧ (dkeys s.npcs).Nodup
    ∧ ∀ (s2 : GameState) (cmd : String) (g : Oracle) (out : GOut),
        processCommand s cmd g hk = .ok (s2, out) →
        (s2.items = s.items ∨ ∃ it p, s2.items = (it.id, it) :: s.items
            ∧ it.id = mkItemId (coordsToStr p) s.items.length ∧ it.id ∉ dkeys s.items)
        ∧ (s2.npcs = s.npcs ∨ ∃ np p, s2.npcs = (np.id, np) :: s.npcs
            ∧ np.id = mkNpcId (coordsToStr p) s.npcs.length ∧ np.id ∉ dkeys s.npcs)
        ∧ s.items.length ≤ s2.items.length ∧ s.npcs.length ≤ s2.npcs.length := by
  obtain ⟨h1, h2⟩ := reachable_keys_nodup hr
  refine ⟨h1, h2, ?_⟩
  intro s2 cmd g out hok
  obtain ⟨-, hit, hnp⟩ := processCommand_spec (reachable_inv hr) hok
  refine ⟨hit, hnp, ?_, ?_⟩
  · rcases hit with he | ⟨it, p, he, -, -⟩
    · rw [he]
    · rw [he]; exact Nat.le_succ _
  · rcases hnp with he | ⟨np, p, he, -, -⟩
    · rw [he]
    · rw [he]; exact Nat.le_succ _

def wGoPair : GameState × GOut :=
  match processCommand wStateGen "go north" wOracleGen true with
  | .ok p => p
  | .error _ => (wStateGen, .pyNone)

def wAfterGo : GameState := wGoPair.1

/-- C9 witness: the theorem applied at the concrete reachable one-item state,
stepped through a concrete movement that generates a second item; the second
id embeds the new coordinate and the grown counter and differs from the first. -/
theorem generated_ids_unique_witness :
    (dkeys wStateGen.items).Nodup
    ∧ processCommand wStateGen "go north" wOracleGen true = .ok (wAfterGo, wGoPair.2)
    ∧ wStateGen.items.length ≤ wAfterGo.items.length
    ∧ wStateGen.npcs.length ≤ wAfterGo.npcs.length
    ∧ dkeys wStateGen.items = ["item_0,0_0"]
    ∧ dkeys wAfterGo.items = ["item_0,1_1", "item_0,0_0"]
    ∧ (dkeys wAfterGo.items).Nodup := by
  have hr : Reachable true wStateGen := Reachable.init [] [] "N5" wOracleGen
  have hr2 : Reachable true wAfterGo :=
    Reachable.step hr (show processCommand wStateGen "go north" wOracleGen true
      = .ok (wAfterGo, wGoPair.2) from rfl)
  have hstep := (generated_ids_unique hr).2.2 wAfterGo "go north" wOracleGen wGoPair.2 rfl
  exact ⟨(generated_ids_unique hr).1, rfl, hstep.2.2.1, hstep.2.2.2, by decide, by decide,
    (generated_ids_unique hr2).1⟩
